import Mathlib

/-!
# muecoin/multiwallet: the Zcash wallet facade and the multi-coin registry

A shallow embedding of `zcash/wallet.go` and `multiwallet.go`.

* Go's fixed-width integers are mathematical integers together with the
  explicit wrap-around of every conversion and arithmetic operation
  (`int32`, `uint32`, `int`, `uint64`).
* Collaborators that live outside these files (the datastore, the client
  pool, the wallet service, the key manager, the address codec) appear as
  explicit results or as fields of an environment record; their effects on
  the wallet are recorded in an explicit state that is passed through.
* A run-time panic (index out of range, nil dereference) is `none`.
-/

namespace Multiwallet

/-! ## Machine integers -/

/-- Conversion to Go `int32`: two's-complement wrap-around to `[-2^31, 2^31)`. -/
def toInt32 (x : Int) : Int := (x + 2147483648) % 4294967296 - 2147483648

/-- Conversion to Go `uint32`: reduction modulo `2^32`. -/
def toUint32 (x : Int) : Int := x % 4294967296

/-- Conversion to Go `int` (64-bit platforms): wrap-around to `[-2^63, 2^63)`. -/
def toInt (x : Int) : Int :=
  (x + 9223372036854775808) % 18446744073709551616 - 9223372036854775808

/-- Conversion to Go `uint64`: reduction modulo `2^64`. -/
def toUint64 (x : Int) : Int := x % 18446744073709551616

/-- Go `int32` range. -/
def isInt32 (x : Int) : Prop := -2147483648 ≤ x ∧ x < 2147483648

/-- Go `uint32` range. -/
def isUint32 (x : Int) : Prop := 0 ≤ x ∧ x < 4294967296

/-- Go `uint64` range. -/
def isUint64 (x : Int) : Prop := 0 ≤ x ∧ x < 18446744073709551616

/-- Go `int` range (64-bit platforms). -/
def isInt (x : Int) : Prop := -9223372036854775808 ≤ x ∧ x < 9223372036854775808

instance (x : Int) : Decidable (isInt32 x) := by unfold isInt32; infer_instance
instance (x : Int) : Decidable (isUint32 x) := by unfold isUint32; infer_instance
instance (x : Int) : Decidable (isUint64 x) := by unfold isUint64; infer_instance
instance (x : Int) : Decidable (isInt x) := by unfold isInt; infer_instance

/-! ## Time (`time.Time`, `time.Duration`) -/

/-- One `time.Hour`, in nanoseconds (the unit of `time.Duration`). -/
def Hour : Int := 3600000000000

/-- Largest `time.Duration` (`math.MaxInt64`). -/
def maxDuration : Int := 9223372036854775807

/-- Smallest `time.Duration` (`math.MinInt64`). -/
def minDuration : Int := -9223372036854775808

/-- Go `time.Since(t)` with the clock reading `now`: the difference in
nanoseconds, saturated to the range of `time.Duration` as `Time.Sub` does. -/
def Since (now t : Int) : Int :=
  if now - t > maxDuration then maxDuration
  else if now - t < minDuration then minDuration
  else now - t

/-! ## `wi.Txn` and `wi.StatusCode` -/

/-- Go `error` values, by message. -/
abbrev GoError := String

/-- The `wi.StatusCode` enumeration; `StatusUnconfirmed` is its zero value. -/
inductive StatusCode where
  | StatusUnconfirmed
  | StatusPending
  | StatusConfirmed
  | StatusStuck
  | StatusDead
  | StatusError
  deriving DecidableEq, Repr

open StatusCode

/-- The `wi.Txn` record of the transaction store. `Height` is an `int32`,
`Timestamp` the first-seen time in nanoseconds. -/
structure Txn where
  Txid : String
  Value : Int
  Height : Int
  Timestamp : Int
  WatchOnly : Bool
  Confirmations : Int
  Status : StatusCode
  ErrorMessage : String
  Bytes : List Nat
  deriving DecidableEq, Repr

namespace ZCashWallet

/-- The `confs` variable of the loop of `Transactions`:
`int32(height) - tx.Height + 1`, overwritten by `tx.Height` when
`tx.Height <= 0`. All arithmetic is `int32`. -/
def confs (height : Int) (tx : Txn) : Int :=
  let c := toInt32 (toInt32 (toInt32 height - toInt32 tx.Height) + 1)
  if toInt32 tx.Height ≤ 0 then toInt32 tx.Height else c

/-- The `switch` of `Transactions`: the `(status, confirmations)` pair it
leaves in the two local variables. Both start at their zero values and only
the Pending and Confirmed arms assign `confirmations`. -/
def statusSwitch (confs elapsed : Int) : StatusCode × Int :=
  if confs < 0 then (StatusDead, 0)
  else if confs = 0 ∧ elapsed ≤ Hour * 6 then (StatusUnconfirmed, 0)
  else if confs = 0 ∧ elapsed > Hour * 6 then (StatusDead, 0)
  else if confs > 0 ∧ confs < 24 then (StatusPending, confs)
  else if confs > 23 then (StatusConfirmed, confs)
  else (StatusUnconfirmed, 0)

/-- One iteration of the loop of `Transactions`: the record written back to
`txns[i]`. Only `Confirmations` and `Status` are assigned. -/
def updateTxn (height now : Int) (tx : Txn) : Txn :=
  let r := statusSwitch (confs height tx) (Since now tx.Timestamp)
  { tx with Confirmations := r.2, Status := r.1 }

/-- `ZCashWallet.Transactions`. `height` is the `uint32` chain tip, `now` the
clock, `getAll` what `w.db.Txns().GetAll(false)` returned. -/
def Transactions (height now : Int) (getAll : List Txn × Option GoError) :
    List Txn × Option GoError :=
  match getAll with
  | (txns, some err) => (txns, some err)
  | (txns, none) => (txns.map (updateTxn height now), none)

/-- `ZCashWallet.GetConfirmations`. `get` is what `w.db.Txns().Get(txid)`
returned, `chainTip` the `uint32` chain tip. The arithmetic is `uint32`. -/
def GetConfirmations (get : Txn × Option GoError) (chainTip : Int) :
    Int × Int × Option GoError :=
  match get with
  | (_, some err) => (0, 0, some err)
  | (txn, none) =>
    if toInt32 txn.Height = 0 then (0, 0, none)
    else
      (toUint32 (toUint32 (toUint32 chainTip - toUint32 txn.Height) + 1),
        toUint32 txn.Height, none)

end ZCashWallet

/-! ## Wire, ledger and client-model records -/

/-- A Go byte slice, one number below 256 per byte; `nil` is `[]`. -/
abbrev Bytes := List Nat

/-- One hexadecimal digit of `encoding/hex`. -/
def hexDigit (n : Nat) : Char :=
  "0123456789abcdef".toList.getD (n % 16) '0'

/-- Go `hex.EncodeToString`. -/
def EncodeToString (b : Bytes) : String :=
  String.mk (b.flatMap fun x => [hexDigit (x / 16), hexDigit x])

/-- The `chainhash.Hash` type: 32 bytes. -/
structure Hash where
  bytes : Bytes
  deriving DecidableEq, Repr

/-- Go `chainhash.Hash.String`: the hexadecimal string of the byte-reversed hash. -/
def Hash.String (h : Hash) : String := EncodeToString h.bytes.reverse

/-- The `wire.OutPoint` record. -/
structure OutPoint where
  Hash : Hash
  Index : Nat
  deriving DecidableEq, Repr

/-- The `wire.TxIn` record. -/
structure TxIn where
  PreviousOutPoint : OutPoint
  SignatureScript : Bytes
  Sequence : Nat
  deriving DecidableEq, Repr

/-- The `wire.TxOut` record. -/
structure TxOut where
  Value : Int
  PkScript : Bytes
  deriving DecidableEq, Repr

/-- The `wire.MsgTx` record. -/
structure MsgTx where
  Version : Int
  TxIn : List TxIn
  TxOut : List TxOut
  LockTime : Nat
  deriving DecidableEq, Repr

/-- The `wi.Utxo` record; its zero value is `Utxo.zero`. -/
structure Utxo where
  Op : OutPoint
  AtHeight : Int
  Value : Int
  ScriptPubkey : Bytes
  WatchOnly : Bool
  deriving DecidableEq, Repr

/-- Zero value of `wi.Utxo`, what `var u wi.Utxo` declares. -/
def Utxo.zero : Utxo :=
  { Op := { Hash := { bytes := List.replicate 32 0 }, Index := 0 }, AtHeight := 0, Value := 0,
    ScriptPubkey := [], WatchOnly := false }

/-- A `btcutil.Address` value, by what its methods `String()` and
`ScriptAddress()` return. -/
structure Address where
  AddrString : String
  ScriptAddress : Bytes
  deriving DecidableEq, Repr

/-- The `wi.CoinType` values the wallet names. -/
inductive CoinType where
  | Bitcoin
  | Litecoin
  | Zcash
  | BitcoinCash
  | Ethereum
  deriving DecidableEq, Repr

/-- A `float64` quotient `float64(num) / den`, kept unevaluated. -/
structure FloatQuot where
  num : Int
  den : Int
  deriving DecidableEq, Repr

/-- The `model.Script` record. -/
structure Script where
  Hex : String
  Asm : String
  deriving DecidableEq, Repr

/-- The `model.Input` record. -/
structure Input where
  Txid : String
  Vout : Int
  Sequence : Nat
  N : Nat
  ScriptSig : Script
  Addr : String
  Satoshis : Int
  Value : FloatQuot
  deriving DecidableEq, Repr

/-- The `model.OutScript` record. -/
structure OutScript where
  Script : Script
  Addresses : List String
  ScriptType : String
  deriving DecidableEq, Repr

/-- The `model.Output` record. -/
structure Output where
  ScriptPubKey : OutScript
  N : Nat
  Value : FloatQuot
  deriving DecidableEq, Repr

/-- The `model.Transaction` record handed to the wallet service. -/
structure Transaction where
  Txid : String
  Version : Int
  Locktime : Int
  Inputs : List Input
  Outputs : List Output
  Time : Int
  Confirmations : Int
  RawBytes : Bytes
  deriving DecidableEq, Repr

/-- The `wi.KeyPurpose` values. -/
inductive KeyPurpose where
  | EXTERNAL
  | INTERNAL
  deriving DecidableEq, Repr

/-- One row of the key store: the script address of a derived key, its
purpose and index, and whether it has been marked used. -/
structure KeyRow where
  scriptAddress : Bytes
  purpose : KeyPurpose
  index : Int
  used : Bool
  deriving DecidableEq, Repr

/-- An `hd.ExtendedKey`, by its serialized key material. -/
structure ExtendedKey where
  key : Bytes
  deriving DecidableEq, Repr

/-- The `wi.TransactionInput` record. -/
structure TransactionInput where
  OutpointHash : Bytes
  OutpointIndex : Nat
  Value : Int
  deriving DecidableEq, Repr

/-- The `wi.TransactionOutput` record. -/
structure TransactionOutput where
  Address : Address
  Value : Int
  Index : Nat
  deriving DecidableEq, Repr

/-- The `InputType` enumeration of the size estimator. -/
inductive InputType where
  | P2PKH
  | P2SH_1of2_Multisig
  | P2SH_2of3_Multisig
  | P2SH_Multisig_Timelock_1Sig
  | P2SH_Multisig_Timelock_2Sigs
  deriving DecidableEq, Repr

/-! ## Wallet state and collaborators -/

/-- The ledger owned by the wallet service: the UTXO and transaction tables. -/
structure Ledger where
  utxos : List Utxo
  txns : List Txn
  deriving DecidableEq, Repr

/-- What the wallet's collaborators hold: the ledger, the watched-script
store, the key store, and the calls received so far by the client pool
(`ListenAddress`, `Broadcast`) and by the wallet service
(`ProcessIncomingTransaction`), oldest first. -/
structure World where
  ledger : Ledger
  watchedScripts : List Bytes
  keys : List KeyRow
  listening : List Address
  submitted : List Bytes
  ingested : List Transaction
  deriving DecidableEq, Repr

/-- Behaviour of the collaborators of `ZCashWallet` that are not part of
`wallet.go`. A Go result `(v, err)` whose value is used only when `err` is nil
is an `Except`; one whose value is used although the error is discarded is a
pair. -/
structure Env where
  /-- Serializer `serializeVersion4Transaction(tx, expiryHeight)`. -/
  serializeVersion4Transaction : MsgTx → Int → Except GoError Bytes
  /-- Hash `tx.TxHash()`. -/
  TxHash : MsgTx → Hash
  /-- Clock `time.Now().Unix()`. -/
  nowUnix : Int
  /-- Datastore `w.db.Utxos().GetAll()`. -/
  UtxosGetAll : Ledger → Except GoError (List Utxo)
  /-- Codec `zaddr.ExtractPkScriptAddrs(script, params)`. -/
  ExtractPkScriptAddrs : Bytes → Except GoError Address
  /-- Codec `zaddr.PayToAddrScript(addr)`: the script and the error. -/
  PayToAddrScript : Address → Bytes × Option GoError
  /-- Helper `util.SatoshisPerCoin`. -/
  SatoshisPerCoin : CoinType → Int
  /-- Client pool `w.client.Broadcast(txBytes)`. -/
  clientBroadcast : Bytes → Except GoError String
  /-- Wallet service `w.ws.ProcessIncomingTransaction(cTxn)`, on the ledger. -/
  ProcessIncomingTransaction : Transaction → Ledger → Ledger
  /-- Datastore `w.db.WatchedScripts().Put(script)`: the store afterwards and the error. -/
  WatchedScriptsPut : Bytes → List Bytes → List Bytes × Option GoError
  /-- Datastore `w.db.Keys().GetUnused(purpose)`: the indexes and the error. -/
  KeysGetUnused : KeyPurpose → List KeyRow → List Int × Option GoError
  /-- Datastore `w.db.Keys().MarkKeyAsUsed(scriptAddress)`: the store afterwards and the error. -/
  KeysMarkKeyAsUsed : Bytes → List KeyRow → List KeyRow × Option GoError
  /-- Key manager `w.km.GenerateChildKey(purpose, index)`: the key (`none` is
  a nil pointer) and the error. -/
  GenerateChildKey : KeyPurpose → Int → Option ExtendedKey × Option GoError
  /-- Method `key.Address(params)` of a non-nil `hd.ExtendedKey`. -/
  keyAddress : ExtendedKey → Except GoError Address
  /-- Codec `zaddr.NewAddressPubKeyHash(hash, params)`. -/
  NewAddressPubKeyHash : Bytes → Except GoError Address
  /-- Size estimator `EstimateSerializeSize(inputCount, txOuts, addChangeOutput, inputType)`. -/
  EstimateSerializeSize : Int → List TxOut → Bool → InputType → Int

/-- Go `util.OutPointsEqual`: equal hash and equal index. -/
def OutPointsEqual (a b : OutPoint) : Bool :=
  decide (a.Hash = b.Hash) && decide (a.Index = b.Index)

/-- Function `zcashCashAddress(key, params)`. The outer `none` is the panic
of `key.Address` on a nil key; otherwise the address or the error. -/
def zcashCashAddress (env : Env) (key : Option ExtendedKey) :
    Option (Except GoError Address) :=
  match key with
  | none => none
  | some k =>
    match env.keyAddress k with
    | .error err => some (.error err)
    | .ok addr => some (env.NewAddressPubKeyHash addr.ScriptAddress)

namespace ZCashWallet

/-- `ZCashWallet.ScriptToAddress`. -/
def ScriptToAddress (env : Env) (script : Bytes) : Except GoError Address :=
  match env.ExtractPkScriptAddrs script with
  | .error err => .error err
  | .ok addr => .ok addr

/-- `ZCashWallet.AddressToScript`. -/
def AddressToScript (env : Env) (addr : Address) : Bytes × Option GoError :=
  env.PayToAddrScript addr

/-- The inner loop of `Broadcast`: the first stored UTXO whose outpoint equals
`op`, or the zero `Utxo` when the loop ends without a `break`. -/
def lookupUtxo (utxos : List Utxo) (op : OutPoint) : Utxo :=
  match utxos with
  | [] => Utxo.zero
  | ut :: rest => if OutPointsEqual ut.Op op then ut else lookupUtxo rest op

/-- The `model.Input` that `Broadcast` builds for input `n`. -/
def mkInput (env : Env) (n : Nat) (inp : TxIn) (u : Utxo) (addr : Address) : Input :=
  { Txid := inp.PreviousOutPoint.Hash.String,
    Vout := inp.PreviousOutPoint.Index,
    ScriptSig := { Hex := EncodeToString inp.SignatureScript, Asm := "" },
    Sequence := inp.Sequence,
    N := n,
    Addr := addr.AddrString,
    Satoshis := u.Value,
    Value := { num := u.Value, den := env.SatoshisPerCoin CoinType.Zcash } }

/-- The `model.Output` that `Broadcast` builds for output `n`. -/
def mkOutput (env : Env) (n : Nat) (out : TxOut) (addr : Address) : Output :=
  { N := n,
    ScriptPubKey :=
      { Script := { Hex := EncodeToString out.PkScript, Asm := "" },
        Addresses := [addr.AddrString], ScriptType := "" },
    Value := { num := out.Value, den := env.SatoshisPerCoin CoinType.Bitcoin } }

/-- The loop `for n, in := range tx.TxIn` of `Broadcast`, from index `n` with
`acc` the inputs appended so far; an address that does not resolve ends the
call with that error. -/
def inputsLoop (env : Env) (utxos : List Utxo) :
    List TxIn → Nat → List Input → Except GoError (List Input)
  | [], _, acc => .ok acc
  | inp :: rest, n, acc =>
    let u := lookupUtxo utxos inp.PreviousOutPoint
    match ScriptToAddress env u.ScriptPubkey with
    | .error err => .error err
    | .ok addr => inputsLoop env utxos rest (n + 1) (acc ++ [mkInput env n inp u addr])

/-- The loop `for n, out := range tx.TxOut` of `Broadcast`. -/
def outputsLoop (env : Env) : List TxOut → Nat → List Output → Except GoError (List Output)
  | [], _, acc => .ok acc
  | out :: rest, n, acc =>
    match ScriptToAddress env out.PkScript with
    | .error err => .error err
    | .ok addr => outputsLoop env rest (n + 1) (acc ++ [mkOutput env n out addr])

/-- `ZCashWallet.Broadcast`: the `(txid, error)` pair returned and the
collaborators' state afterwards. -/
def Broadcast (env : Env) (tx : MsgTx) (st : World) : (String × Option GoError) × World :=
  match env.serializeVersion4Transaction tx 0 with
  | .error err => (("", some err), st)
  | .ok txBytes =>
    let cTxn : Transaction :=
      { Txid := (env.TxHash tx).String, Locktime := tx.LockTime, Version := tx.Version,
        Confirmations := 0, Time := env.nowUnix, RawBytes := txBytes,
        Inputs := [], Outputs := [] }
    match env.UtxosGetAll st.ledger with
    | .error err => (("", some err), st)
    | .ok utxos =>
      match inputsLoop env utxos tx.TxIn 0 cTxn.Inputs with
      | .error err => (("", some err), st)
      | .ok inputs =>
        match outputsLoop env tx.TxOut 0 cTxn.Outputs with
        | .error err => (("", some err), st)
        | .ok outputs =>
          let st₁ := { st with submitted := st.submitted ++ [txBytes] }
          match env.clientBroadcast txBytes with
          | .error err => (("", some err), st₁)
          | .ok txid =>
            let cTxn₁ := { cTxn with Inputs := inputs, Outputs := outputs, Txid := txid }
            ((txid, none),
              { st₁ with
                ledger := env.ProcessIncomingTransaction cTxn₁ st₁.ledger,
                ingested := st₁.ingested ++ [cTxn₁] })

/-- The loop of `EstimateFee` that fills `tx.TxOut`: one `wire.NewTxOut` per
output, appended in order; the error of `PayToAddrScript` is discarded. -/
def estimateOutputs (env : Env) (outs : List TransactionOutput) : List TxOut :=
  outs.foldl
    (fun acc out => acc ++ [{ Value := out.Value, PkScript := (env.PayToAddrScript out.Address).1 }])
    []

/-- `ZCashWallet.EstimateFee`. `feePerByte` is a `uint64`; the product is
computed in Go `int` and converted back to `uint64`. -/
def EstimateFee (env : Env) (ins : List TransactionInput) (outs : List TransactionOutput)
    (feePerByte : Int) : Int :=
  let estimatedSize :=
    env.EstimateSerializeSize ins.length (estimateOutputs env outs) false InputType.P2PKH
  let fee := toInt (estimatedSize * toInt feePerByte)
  toUint64 fee

/-- `ZCashWallet.AddWatchedAddress`: the error returned and the state afterwards. -/
def AddWatchedAddress (env : Env) (addr : Address) (st : World) : Option GoError × World :=
  match AddressToScript env addr with
  | (_, some err) => (some err, st)
  | (script, none) =>
    match env.WatchedScriptsPut script st.watchedScripts with
    | (store, some err) => (some err, { st with watchedScripts := store })
    | (store, none) =>
      (none, { st with watchedScripts := store, listening := st.listening ++ [addr] })

/-- `ZCashWallet.AddWatchedScript`: the error returned and the state afterwards. -/
def AddWatchedScript (env : Env) (script : Bytes) (st : World) : Option GoError × World :=
  match env.WatchedScriptsPut script st.watchedScripts with
  | (store, some err) => (some err, { st with watchedScripts := store })
  | (store, none) =>
    match ScriptToAddress env script with
    | .error err => (some err, { st with watchedScripts := store })
    | .ok addr =>
      (none, { st with watchedScripts := store, listening := st.listening ++ [addr] })

/-- `ZCashWallet.NewAddress`: the address returned and the state afterwards,
or `none` when the call panics: `i[1]` out of range, `key.Address` on a nil
key, or `addr.ScriptAddress()` on the nil address left by a discarded error.
The errors of `GetUnused`, `GenerateChildKey`, `zcashCashAddress` and
`MarkKeyAsUsed` are all discarded. -/
def NewAddress (env : Env) (purpose : KeyPurpose) (st : World) : Option (Address × World) :=
  let i := (env.KeysGetUnused purpose st.keys).1
  match i[1]? with
  | none => none
  | some idx =>
    let key := (env.GenerateChildKey purpose (toUint32 idx)).1
    match zcashCashAddress env key with
    | none => none
    | some (.error _) => none
    | some (.ok addr) =>
      some (addr, { st with keys := (env.KeysMarkKeyAsUsed addr.ScriptAddress st.keys).1 })

/-- `ZCashWallet.CurrencyCode`, from `w.params.Name`;
`chaincfg.MainNetParams.Name` is `"mainnet"`. -/
def CurrencyCode (paramsName : String) : String :=
  if paramsName = "mainnet" then "zec" else "tzec"

end ZCashWallet

/-! ## `multiwallet.go` -/

/-- The `wallet.Wallet` values held by a `MultiWallet`, by the network name of
their parameters and what their `CurrencyCode()` returns. -/
structure Wallet where
  paramsName : String
  CurrencyCode : String
  deriving DecidableEq, Repr

/-- The Zcash wallet built over parameters named `paramsName`. -/
def Wallet.zcash (paramsName : String) : Wallet :=
  { paramsName := paramsName, CurrencyCode := ZCashWallet.CurrencyCode paramsName }

/-- The error value `UnsuppertedCoinError`. -/
def UnsuppertedCoinError : GoError :=
  "multiwallet does not contain an implementation for the given coin"

/-- The `MultiWallet` map, as the sequence of `(coin type, wallet)` entries in
the order one `range` over it visits them. Go leaves that order unspecified,
so every property is stated for every order. -/
abbrev MultiWallet := List (Nat × Wallet)

/-- The test of the loop of `WalletForCurrencyCode`; `ToUpper` is `strings.ToUpper`. -/
def codeMatches (ToUpper : String → String) (wl : Wallet) (currencyCode : String) : Bool :=
  ToUpper wl.CurrencyCode == ToUpper currencyCode
    || ToUpper wl.CurrencyCode == "T" ++ ToUpper currencyCode

/-- `MultiWallet.WalletForCurrencyCode`: the `(wallet, error)` pair, `none`
being nil. -/
def WalletForCurrencyCode (ToUpper : String → String) (w : MultiWallet)
    (currencyCode : String) : Option Wallet × Option GoError :=
  match w with
  | [] => (none, some UnsuppertedCoinError)
  | (_, wl) :: rest =>
    if codeMatches ToUpper wl currencyCode then (some wl, none)
    else WalletForCurrencyCode ToUpper rest currencyCode

/-! ## The status policy, as the specification words it -/

/-- Confirmation count of the specification: `H - Th + 1` for `Th > 0`, else `Th`. -/
def specConfirmations (H Th : Int) : Int :=
  if Th > 0 then H - Th + 1 else Th

/-- Status policy of the specification over a confirmation count `c` and the
time `elapsed` since the transaction was first seen. -/
def specStatus (c elapsed : Int) : StatusCode :=
  if c < 0 then StatusDead
  else if c = 0 then (if elapsed ≤ 6 * Hour then StatusUnconfirmed else StatusDead)
  else if c < 24 then StatusPending
  else StatusConfirmed

/-- A stored record used in the concrete evaluations below. -/
def sampleTxn (height timestamp : Int) : Txn :=
  { Txid := "a1", Value := 5000, Height := height, Timestamp := timestamp,
    WatchOnly := false, Confirmations := 0, Status := StatusUnconfirmed,
    ErrorMessage := "", Bytes := [] }

/-! ## A concrete environment for the evaluations -/

/-- The pay-to-pubkey-hash script over a 20-byte hash. -/
def p2pkhScript (h : Bytes) : Bytes := [118, 169, 20] ++ h ++ [136, 172]

/-- ASCII upper-casing, with which `strings.ToUpper` agrees on ASCII strings. -/
def asciiToUpper (s : String) : String := String.mk (s.toList.map Char.toUpper)

/-- A collaborator environment in which nothing fails on well-formed data:
the codec accepts exactly 25-byte scripts and 20-byte script addresses, the
datastore appends, the key store reports the unused indexes of a purpose in
row order, and the client pool accepts every transaction. -/
def sampleEnv : Env :=
  { serializeVersion4Transaction := fun tx _ => .ok [4, tx.TxIn.length, tx.TxOut.length]
    TxHash := fun _ => { bytes := List.replicate 32 7 }
    nowUnix := 1700000000
    UtxosGetAll := fun l => .ok l.utxos
    ExtractPkScriptAddrs := fun s =>
      if s.length = 25 then
        .ok { AddrString := "t1" ++ EncodeToString ((s.drop 3).take 20),
              ScriptAddress := (s.drop 3).take 20 }
      else .error "unknown script type"
    PayToAddrScript := fun a =>
      if a.ScriptAddress.length = 20 then (p2pkhScript a.ScriptAddress, none)
      else ([], some "unable to generate payment script for unsupported address type")
    SatoshisPerCoin := fun _ => 100000000
    clientBroadcast := fun _ => .ok "9f3c"
    ProcessIncomingTransaction := fun t l =>
      { l with
        txns := l.txns ++
          [{ Txid := t.Txid, Value := 0, Height := 0, Timestamp := t.Time, WatchOnly := false,
             Confirmations := 0, Status := StatusCode.StatusUnconfirmed, ErrorMessage := "",
             Bytes := t.RawBytes }] }
    WatchedScriptsPut := fun s store => (store ++ [s], none)
    KeysGetUnused := fun p rows =>
      ((rows.filter fun r => decide (r.purpose = p) && !r.used).map KeyRow.index, none)
    KeysMarkKeyAsUsed := fun sa rows =>
      (rows.map fun r => if r.scriptAddress = sa then { r with used := true } else r, none)
    GenerateChildKey := fun _ i => (some { key := [i.toNat] }, none)
    keyAddress := fun k =>
      .ok { AddrString := "1" ++ EncodeToString (List.replicate 20 (k.key.headD 0)),
            ScriptAddress := List.replicate 20 (k.key.headD 0) }
    NewAddressPubKeyHash := fun h =>
      if h.length = 20 then .ok { AddrString := "t1" ++ EncodeToString h, ScriptAddress := h }
      else .error "pkHash must be 20 bytes"
    EstimateSerializeSize := fun n outs _ _ =>
      12 + n * 148 + (outs.map fun o => 9 + (o.PkScript.length : Int)).sum }

/-- The same environment with a client pool that rejects every transaction. -/
def rejectingEnv : Env :=
  { sampleEnv with clientBroadcast := fun _ => .error "64: dust" }

/-- An outpoint of the sample ledger. -/
def sampleOutPoint (b i : Nat) : OutPoint :=
  { Hash := { bytes := List.replicate 32 b }, Index := i }

/-- A sample state: two UTXOs, one watched script, three unused external keys. -/
def sampleWorld : World :=
  { ledger :=
      { utxos :=
          [{ Op := sampleOutPoint 1 0, AtHeight := 90, Value := 70000,
             ScriptPubkey := p2pkhScript (List.replicate 20 5), WatchOnly := false },
           { Op := sampleOutPoint 2 1, AtHeight := 0, Value := 30000,
             ScriptPubkey := p2pkhScript (List.replicate 20 6), WatchOnly := false }],
        txns := [] },
    watchedScripts := [p2pkhScript (List.replicate 20 9)],
    keys :=
      [{ scriptAddress := List.replicate 20 0, purpose := KeyPurpose.EXTERNAL, index := 0,
         used := false },
       { scriptAddress := List.replicate 20 1, purpose := KeyPurpose.EXTERNAL, index := 1,
         used := false },
       { scriptAddress := List.replicate 20 2, purpose := KeyPurpose.EXTERNAL, index := 2,
         used := false }],
    listening := [],
    submitted := [],
    ingested := [] }

/-- A sample transaction spending both sample UTXOs into one output. -/
def sampleTx : MsgTx :=
  { Version := 4,
    TxIn :=
      [{ PreviousOutPoint := sampleOutPoint 2 1, SignatureScript := [1, 2], Sequence := 0 },
       { PreviousOutPoint := sampleOutPoint 1 0, SignatureScript := [3], Sequence := 0 }],
    TxOut := [{ Value := 99000, PkScript := p2pkhScript (List.replicate 20 8) }],
    LockTime := 0 }

/-- A transaction whose only input spends an outpoint that is not stored. -/
def orphanTx : MsgTx :=
  { sampleTx with
    TxIn := [{ PreviousOutPoint := sampleOutPoint 3 0, SignatureScript := [], Sequence := 0 }] }

/-! ## `monetaryunit/params.go` -/

/-- Go `(*big.Int).Lsh`: `x` shifted left by `n` bits. -/
def Lsh (x : Int) (n : Nat) : Int := x * 2 ^ n

/-- Go `(*big.Int).Sub`. -/
def Sub (x y : Int) : Int := x - y

/-- The variable `bigOne`: `big.NewInt(1)`. -/
def bigOne : Int := 1

/-- The variable `mainPowLimit`: `Sub(Lsh(bigOne, 255), bigOne)`. -/
def mainPowLimit : Int := Sub (Lsh bigOne 255) bigOne

/-- The constant `MainMonetaryUnitNet`. -/
def MainMonetaryUnitNet : Nat := 0x504852

/-- The constant `MainMonetaryUnitTestNet`. -/
def MainMonetaryUnitTestNet : Nat := 0x54504852

/-- The fields of `chaincfg.Params` that `params.go` sets to a value;
durations are in nanoseconds. -/
structure Params where
  Name : String
  Net : Nat
  DefaultPort : String
  DNSSeeds : List (String × Bool)
  PowLimit : Int
  PowLimitBits : Nat
  BIP0034Height : Int
  BIP0065Height : Int
  BIP0066Height : Int
  CoinbaseMaturity : Nat
  TargetTimespan : Int
  TargetTimePerBlock : Int
  RetargetAdjustmentFactor : Int
  ReduceMinDifficulty : Bool
  MinDiffReductionTime : Int
  GenerateSupported : Bool
  RelayNonStdTxs : Bool
  Bech32HRPSegwit : String
  PubKeyHashAddrID : Nat
  ScriptHashAddrID : Nat
  PrivateKeyID : Nat
  HDPrivateKeyID : List Nat
  HDPublicKeyID : List Nat
  HDCoinType : Nat
  deriving DecidableEq, Repr

/-- The variable `MonetaryUnitMainNetParams`. -/
def MonetaryUnitMainNetParams : Params :=
  { Name := "mainMonetaryUnit",
    Net := MainMonetaryUnitNet,
    DefaultPort := "19687",
    DNSSeeds := [("dns1.monetaryunit.org", true), ("dns2.monetaryunit.org", true)],
    PowLimit := mainPowLimit,
    PowLimitBits := 0x207fffff,
    BIP0034Height := 0,
    BIP0065Height := 0,
    BIP0066Height := 0,
    CoinbaseMaturity := 50,
    TargetTimespan := 1000000000 * 400,
    TargetTimePerBlock := 1000000000 * 40,
    RetargetAdjustmentFactor := 4,
    ReduceMinDifficulty := false,
    MinDiffReductionTime := 0,
    GenerateSupported := true,
    RelayNonStdTxs := false,
    Bech32HRPSegwit := "mue",
    PubKeyHashAddrID := 0x37,
    ScriptHashAddrID := 0x0d,
    PrivateKeyID := 0xd4,
    HDPrivateKeyID := [0x02, 0x2d, 0x25, 0x33],
    HDPublicKeyID := [0x02, 0x21, 0x31, 0x2b],
    HDCoinType := 0x8000001f }

/-- The variable `MonetaryUnitTestNetParams`: a copy of the main-net value. -/
def MonetaryUnitTestNetParams : Params := MonetaryUnitMainNetParams

/-! ## `util/coin_types.go` -/

/-- Function `util.ExtendCoinType`: `ExtCoinType(uint32(coinType))`. -/
def ExtendCoinType (coinType : Nat) : Nat := coinType % 4294967296

/-- The constant `CoinTypeMonetaryUnit`. -/
def CoinTypeMonetaryUnit : Nat := 31

/-- The constant `CoinTypeMonetaryUnitTest`. -/
def CoinTypeMonetaryUnitTest : Nat := 100031

/-- Method `ExtCoinType.ToCoinType`: `wallet.CoinType(uint32(c))`. -/
def ToCoinType (c : Nat) : Nat := c % 4294967296

/-! ## `NewMultiWallet` and the start command -/

/-- The numeric values of the `wallet.CoinType` constants of the wallet
interface: `mainnet c` is `wallet.X` and `testnet c` is `wallet.TestnetX`. -/
structure CoinCodes where
  mainnet : CoinType → Nat
  testnet : CoinType → Nat

/-- The name of `chaincfg.MainNetParams`. -/
def MainNetParamsName : String := "mainnet"

/-- The name of `chaincfg.TestNet3Params`. -/
def TestNet3ParamsName : String := "testnet3"

/-- The `config.CoinConfig` record, by the fields the registry reads. -/
structure CoinConfig where
  CoinType : Nat
  ClientAPIs : List String
  deriving DecidableEq, Repr

/-- The `config.Config` record, by the fields `NewMultiWallet` reads;
`ParamsName` is `cfg.Params.Name`. -/
structure Config where
  ParamsName : String
  Mnemonic : String
  Coins : List CoinConfig
  DisableExchangeRates : Bool
  deriving DecidableEq, Repr

/-- The fallible steps `NewMultiWallet` delegates: mnemonic generation
(`bip39.NewEntropy(128)` then `bip39.NewMnemonic`) and the per-coin wallet
constructors, each given the coin's configuration, the mnemonic and the
network parameters (for MonetaryUnit the chosen `Params`, for the others the
name of `cfg.Params`). -/
structure Constructors where
  newMnemonic : Except GoError String
  NewMonetaryUnitWallet : CoinConfig → String → Params → Except GoError Wallet
  NewBitcoinWallet : CoinConfig → String → String → Except GoError Wallet
  NewBitcoinCashWallet : CoinConfig → String → String → Except GoError Wallet
  NewZCashWallet : CoinConfig → String → String → Except GoError Wallet
  NewLitecoinWallet : CoinConfig → String → String → Except GoError Wallet

/-- Go map assignment `multiwallet[k] = w`: an entry under `k` is replaced. -/
def mapAssign (m : MultiWallet) (k : Nat) (w : Wallet) : MultiWallet :=
  m.filter (fun e => decide (e.1 ≠ k)) ++ [(k, w)]

/-- The keys of a `MultiWallet`. -/
def MultiWallet.keys (m : MultiWallet) : List Nat := m.map Prod.fst

/-- The arm shared by Bitcoin, Bitcoin Cash, Zcash and Litecoin in the switch
of `NewMultiWallet`: construct over `cfg.Params`, then store under the mainnet
coin type when `cfg.Params.Name == chaincfg.MainNetParams.Name` and under the
testnet one otherwise. -/
def registerStandard (cfg : Config) (mnemonic : String) (m : MultiWallet)
    (construct : CoinConfig → String → String → Except GoError Wallet)
    (coin : CoinConfig) (mainKey testKey : Nat) : Except GoError MultiWallet :=
  match construct coin mnemonic cfg.ParamsName with
  | .error err => .error err
  | .ok w =>
    if cfg.ParamsName = MainNetParamsName then .ok (mapAssign m (ExtendCoinType mainKey) w)
    else .ok (mapAssign m (ExtendCoinType testKey) w)

/-- One iteration of the loop of `NewMultiWallet`: the `switch coin.CoinType`,
its cases tried in source order. A coin type without a case registers nothing. -/
def registerCoin (cs : Constructors) (codes : CoinCodes) (cfg : Config) (mnemonic : String)
    (m : MultiWallet) (coin : CoinConfig) : Except GoError MultiWallet :=
  if coin.CoinType = CoinTypeMonetaryUnit then
    let params :=
      if cfg.ParamsName = MonetaryUnitMainNetParams.Name then MonetaryUnitMainNetParams
      else MonetaryUnitTestNetParams
    match cs.NewMonetaryUnitWallet coin mnemonic params with
    | .error err => .error err
    | .ok w =>
      if cfg.ParamsName = MonetaryUnitMainNetParams.Name then
        .ok (mapAssign m CoinTypeMonetaryUnit w)
      else .ok (mapAssign m CoinTypeMonetaryUnitTest w)
  else if coin.CoinType = ExtendCoinType (codes.mainnet CoinType.Bitcoin) then
    registerStandard cfg mnemonic m cs.NewBitcoinWallet coin
      (codes.mainnet CoinType.Bitcoin) (codes.testnet CoinType.Bitcoin)
  else if coin.CoinType = ExtendCoinType (codes.mainnet CoinType.BitcoinCash) then
    registerStandard cfg mnemonic m cs.NewBitcoinCashWallet coin
      (codes.mainnet CoinType.BitcoinCash) (codes.testnet CoinType.BitcoinCash)
  else if coin.CoinType = ExtendCoinType (codes.mainnet CoinType.Zcash) then
    registerStandard cfg mnemonic m cs.NewZCashWallet coin
      (codes.mainnet CoinType.Zcash) (codes.testnet CoinType.Zcash)
  else if coin.CoinType = ExtendCoinType (codes.mainnet CoinType.Litecoin) then
    registerStandard cfg mnemonic m cs.NewLitecoinWallet coin
      (codes.mainnet CoinType.Litecoin) (codes.testnet CoinType.Litecoin)
  else .ok m

/-- The loop `for _, coin := range cfg.Coins` of `NewMultiWallet`; the first
constructor error ends the call. -/
def coinsLoop (cs : Constructors) (codes : CoinCodes) (cfg : Config) (mnemonic : String) :
    List CoinConfig → MultiWallet → Except GoError MultiWallet
  | [], m => .ok m
  | coin :: rest, m =>
    match registerCoin cs codes cfg mnemonic m coin with
    | .error err => .error err
    | .ok m₁ => coinsLoop cs codes cfg mnemonic rest m₁

/-- `NewMultiWallet`: an empty `cfg.Mnemonic` is first replaced by a generated
one, then every configured coin is registered. -/
def NewMultiWallet (cs : Constructors) (codes : CoinCodes) (cfg : Config) :
    Except GoError MultiWallet :=
  if cfg.Mnemonic = "" then
    match cs.newMnemonic with
    | .error err => .error err
    | .ok mnemonic => coinsLoop cs codes cfg mnemonic cfg.Coins []
  else coinsLoop cs codes cfg cfg.Mnemonic cfg.Coins []

/-- The network parameters `Start.Execute` passes to the configuration:
`chaincfg.MainNetParams`, or `chaincfg.TestNet3Params` under `--testnet`. -/
def startParamsName (testnet : Bool) : String :=
  if testnet then TestNet3ParamsName else MainNetParamsName

/-- The coin types `Start.Execute` enables, in the order it sets them. -/
def startCoinTypes (codes : CoinCodes) : List Nat :=
  [codes.mainnet CoinType.Bitcoin, codes.mainnet CoinType.BitcoinCash,
   codes.mainnet CoinType.Zcash, codes.mainnet CoinType.Litecoin,
   codes.mainnet CoinType.Ethereum, ToCoinType CoinTypeMonetaryUnit]

/-- The coin-type values of the wallet interface used in the evaluations. -/
def sampleCodes : CoinCodes :=
  { mainnet := fun c =>
      match c with
      | CoinType.Bitcoin => 0
      | CoinType.Litecoin => 1
      | CoinType.Zcash => 133
      | CoinType.BitcoinCash => 145
      | CoinType.Ethereum => 60
    testnet := fun c =>
      match c with
      | CoinType.Bitcoin => 1000000
      | CoinType.Litecoin => 1000001
      | CoinType.Zcash => 1000133
      | CoinType.BitcoinCash => 1000145
      | CoinType.Ethereum => 1000060 }

/-- Constructors that always succeed, each wallet recording the name of the
parameters it was built over. -/
def sampleConstructors : Constructors :=
  { newMnemonic := .ok "abandon ability able"
    NewMonetaryUnitWallet := fun _ _ p => .ok { paramsName := p.Name, CurrencyCode := "mue" }
    NewBitcoinWallet := fun _ _ n =>
      .ok { paramsName := n, CurrencyCode := if n = MainNetParamsName then "btc" else "tbtc" }
    NewBitcoinCashWallet := fun _ _ n =>
      .ok { paramsName := n, CurrencyCode := if n = MainNetParamsName then "bch" else "tbch" }
    NewZCashWallet := fun _ _ n => .ok (Wallet.zcash n)
    NewLitecoinWallet := fun _ _ n =>
      .ok { paramsName := n, CurrencyCode := if n = MainNetParamsName then "ltc" else "tltc" } }

/-- The configuration of the start command: every coin type it enables, over
the parameters chosen by the `--testnet` flag. -/
def startConfig (testnet : Bool) : Config :=
  { ParamsName := startParamsName testnet,
    Mnemonic := "bottle author ability expose illegal saddle antique setup pledge wife innocent treat",
    Coins := (startCoinTypes sampleCodes).map fun c => { CoinType := c, ClientAPIs := [] },
    DisableExchangeRates := false }

/-! ## Theorems: transaction status and confirmations -/

open ZCashWallet

theorem Since_le_iff (now t : Int) : Since now t ≤ Hour * 6 ↔ now - t ≤ 6 * Hour := by
  unfold Since maxDuration minDuration Hour
  split_ifs <;> omega

theorem Since_gt_iff (now t : Int) : Since now t > Hour * 6 ↔ ¬ now - t ≤ 6 * Hour := by
  unfold Since maxDuration minDuration Hour
  split_ifs <;> omega

theorem toInt32_of_isInt32 (x : Int) (h : isInt32 x) : toInt32 x = x := by
  unfold isInt32 at h
  unfold toInt32
  omega

theorem confs_eq_spec (H : Int) (tx : Txn) (hH : 0 ≤ H ∧ H < 2147483648)
    (hTh : isInt32 tx.Height) : confs H tx = specConfirmations H tx.Height := by
  unfold isInt32 at hTh
  unfold confs specConfirmations toInt32
  simp only []
  split_ifs <;> omega

theorem Transactions_ok (H now : Int) (txns : List Txn) :
    Transactions H now (txns, none) = (txns.map (updateTxn H now), none) := rfl

theorem updateTxn_status (H now : Int) (tx : Txn) (hH : 0 ≤ H ∧ H < 2147483648)
    (hTh : isInt32 tx.Height) :
    (updateTxn H now tx).Status
      = specStatus (specConfirmations H tx.Height) (now - tx.Timestamp) := by
  have hc := confs_eq_spec H tx hH hTh
  have h1 := Since_le_iff now tx.Timestamp
  have h2 := Since_gt_iff now tx.Timestamp
  unfold updateTxn statusSwitch specStatus
  simp only [hc]
  split_ifs <;> first | rfl | omega

theorem updateTxn_confirmations (H now : Int) (tx : Txn) (hH : 0 ≤ H ∧ H < 2147483648)
    (hTh : isInt32 tx.Height) :
    (updateTxn H now tx).Confirmations
      = if specConfirmations H tx.Height > 0 then specConfirmations H tx.Height else 0 := by
  have hc := confs_eq_spec H tx hH hTh
  unfold updateTxn statusSwitch
  simp only [hc]
  split_ifs <;> first | rfl | omega

example : (Transactions 100 0 ([sampleTxn 77 0], none)).1.map Txn.Status = [StatusConfirmed] := by decide
example : (Transactions 2147483648 0 ([sampleTxn 1 0], none)).1.map Txn.Status = [StatusDead] := by decide
example : specStatus (specConfirmations 2147483648 1) (0 - 0) = StatusConfirmed := by decide
example : GetConfirmations (sampleTxn (-1) 0, none) 100 = (102, 4294967295, none) := by decide

theorem updateTxn_height (H now : Int) (tx : Txn) : (updateTxn H now tx).Height = tx.Height := rfl

theorem updateTxn_negative_dead (H now : Int) (tx : Txn) (hTh : isInt32 tx.Height)
    (hneg : tx.Height < 0) : (updateTxn H now tx).Status = StatusDead := by
  have h32 := toInt32_of_isInt32 tx.Height hTh
  unfold updateTxn statusSwitch confs
  simp only [h32, if_pos (show tx.Height ≤ 0 by omega), if_pos hneg]

/-- Claim C1 fails as stated: with chain tip `2^31` (a valid `uint32`) and a
record at height 1, `int32(height)` wraps to `-2^31`, the `int32` count is
negative and `Transactions` reports Dead, while the policy applied to
`H - Th + 1 = 2^31` says Confirmed. -/
theorem Transactions_status_int32_wrap :
    isUint32 2147483648 ∧ isInt32 (sampleTxn 1 0).Height
    ∧ (Transactions 2147483648 0 ([sampleTxn 1 0], none)).1.map Txn.Status = [StatusDead]
    ∧ specStatus (specConfirmations 2147483648 (sampleTxn 1 0).Height)
          (0 - (sampleTxn 1 0).Timestamp) = StatusConfirmed := by
  decide

/-- Claim C1, amended: for every chain tip `H` below `2^31` (so that
`int32(height)` is `H`), every list of stored records with `int32` heights and
every clock reading, `Transactions` succeeds and the statuses of the returned
records are, position by position, the status policy applied to
`c = H - Th + 1` if `Th > 0` and `c = Th` otherwise, with the elapsed time
`now - t`; and every returned record with a negative height is Dead. -/
theorem Transactions_status_policy (H now : Int) (txns : List Txn)
    (hH : 0 ≤ H ∧ H < 2147483648) (hTh : ∀ tx ∈ txns, isInt32 tx.Height) :
    (Transactions H now (txns, none)).2 = none
    ∧ (Transactions H now (txns, none)).1.map Txn.Status
        = txns.map (fun tx =>
            specStatus (specConfirmations H tx.Height) (now - tx.Timestamp))
    ∧ ∀ r ∈ (Transactions H now (txns, none)).1, r.Height < 0 → r.Status = StatusDead := by
  refine ⟨rfl, ?_, ?_⟩
  · rw [Transactions_ok, List.map_map]
    apply List.map_congr_left
    intro tx htx
    exact updateTxn_status H now tx hH (hTh tx htx)
  · intro r hr hneg
    rw [Transactions_ok] at hr
    obtain ⟨tx, htx, rfl⟩ := List.mem_map.mp hr
    exact updateTxn_negative_dead H now tx (hTh tx htx) hneg

/-- Claim C1 at the specification's own examples: tip 100 with heights 77 and
95, height 0 first seen 3 and 7 hours ago, and a negative height. -/
theorem Transactions_status_policy_witness :
    (Transactions 100 (7 * Hour)
        ([sampleTxn 77 0, sampleTxn 95 0, sampleTxn 0 (4 * Hour), sampleTxn 0 0,
          sampleTxn (-1) (7 * Hour)], none)).1.map Txn.Status
      = [StatusConfirmed, StatusPending, StatusUnconfirmed, StatusDead, StatusDead] :=
  (Transactions_status_policy 100 (7 * Hour)
      [sampleTxn 77 0, sampleTxn 95 0, sampleTxn 0 (4 * Hour), sampleTxn 0 0,
        sampleTxn (-1) (7 * Hour)] (by decide) (by decide)).2.1.trans (by decide)

/-- Claim C2 fails as stated: for a record at height `-1` under tip 100 the
claim gives `Confirmations = -1` and the code writes 0; under tip `2^31` with
height 1 the claim gives `2^31` and the code writes 0. -/
theorem Transactions_confirmations_not_marker :
    (Transactions 100 0 ([sampleTxn (-1) 0], none)).1.map Txn.Confirmations = [0]
    ∧ specConfirmations 100 (sampleTxn (-1) 0).Height = -1
    ∧ (Transactions 2147483648 0 ([sampleTxn 1 0], none)).1.map Txn.Confirmations = [0]
    ∧ specConfirmations 2147483648 (sampleTxn 1 0).Height = 2147483648 := by
  decide

/-- Claim C2, amended: for every chain tip `H` below `2^31` and every stored
record with `int32` height `Th`, the `Confirmations` that `Transactions`
writes is `H - Th + 1` when `0 < Th ≤ H` and 0 otherwise (height markers
`Th ≤ 0` and heights above the tip give 0). -/
theorem Transactions_confirmations_value (H now : Int) (txns : List Txn)
    (hH : 0 ≤ H ∧ H < 2147483648) (hTh : ∀ tx ∈ txns, isInt32 tx.Height) :
    (Transactions H now (txns, none)).1.map Txn.Confirmations
      = txns.map (fun tx =>
          if 0 < tx.Height ∧ tx.Height ≤ H then H - tx.Height + 1 else 0) := by
  rw [Transactions_ok, List.map_map]
  apply List.map_congr_left
  intro tx htx
  have h := updateTxn_confirmations H now tx hH (hTh tx htx)
  simp only [Function.comp_apply, h]
  unfold specConfirmations
  split_ifs <;> omega

/-- Claim C2 at the specification's examples (tip 100, heights 77 and 95) and
at a height marker and a height above the tip. -/
theorem Transactions_confirmations_value_witness :
    (Transactions 100 0
        ([sampleTxn 77 0, sampleTxn 95 0, sampleTxn (-1) 0, sampleTxn 0 0,
          sampleTxn 105 0], none)).1.map Txn.Confirmations
      = [24, 6, 0, 0, 0] :=
  (Transactions_confirmations_value 100 0
      [sampleTxn 77 0, sampleTxn 95 0, sampleTxn (-1) 0, sampleTxn 0 0, sampleTxn 105 0]
      (by decide) (by decide)).trans (by decide)

/-- Claim C3, the code at the failing input: for a stored record with height
`-1` under chain tip 100, `GetConfirmations` converts the marker to `uint32`
and returns 102 confirmations at height 4294967295, while `Transactions`
treats the height as a marker and writes `Confirmations = 0` (status Dead). -/
theorem GetConfirmations_negative_height_diverges :
    GetConfirmations (sampleTxn (-1) 0, none) 100 = (102, 4294967295, none)
    ∧ (Transactions 100 0 ([sampleTxn (-1) 0], none)).1.map
          (fun r => (r.Confirmations, r.Status)) = [(0, StatusDead)] := by
  decide

/-- Where the two paths do agree: a tip below `2^31` and a recorded height
between 0 and one above the tip. -/
theorem GetConfirmations_agrees_in_range (H now : Int) (tx : Txn)
    (hH : 0 ≤ H ∧ H < 2147483648) (hTh : isInt32 tx.Height) (h0 : 0 ≤ tx.Height)
    (h1 : tx.Height ≤ H + 1) :
    (GetConfirmations (tx, none) H).1 = (updateTxn H now tx).Confirmations := by
  have h := updateTxn_confirmations H now tx hH hTh
  have h32 := toInt32_of_isInt32 tx.Height hTh
  rw [h]
  unfold GetConfirmations specConfirmations
  simp only [h32]
  unfold toUint32
  split_ifs <;> simp only [] <;> omega

/-- Claim C4: the `Status` and `Confirmations` that `Transactions` produces
depend only on the chain tip, the clock, and the record's `Height` and
`Timestamp`: for two stores and two positions holding records with equal
`Height` and `Timestamp`, the returned records at these positions exist and
carry the same `Status` and `Confirmations`, whatever the other fields and
the previously stored `Status` and `Confirmations` are. -/
theorem Transactions_status_pure (H now : Int) (txns₁ txns₂ : List Txn) (i j : Nat)
    (a b : Txn) (ha : txns₁[i]? = some a) (hb : txns₂[j]? = some b)
    (hHeight : a.Height = b.Height) (hTime : a.Timestamp = b.Timestamp) :
    ∃ r₁ r₂, (Transactions H now (txns₁, none)).1[i]? = some r₁
      ∧ (Transactions H now (txns₂, none)).1[j]? = some r₂
      ∧ r₁.Status = r₂.Status ∧ r₁.Confirmations = r₂.Confirmations := by
  refine ⟨updateTxn H now a, updateTxn H now b, ?_, ?_, ?_, ?_⟩
  · rw [Transactions_ok]; simp [List.getElem?_map, ha]
  · rw [Transactions_ok]; simp [List.getElem?_map, hb]
  · unfold updateTxn confs; simp only [hHeight, hTime]
  · unfold updateTxn confs; simp only [hHeight, hTime]

/-- Claim C4 on two records that differ in every field but `Height` and
`Timestamp`. -/
theorem Transactions_status_pure_witness :
    ∃ r₁ r₂,
      (Transactions 100 (2 * Hour) ([sampleTxn 95 Hour], none)).1[0]? = some r₁
      ∧ (Transactions 100 (2 * Hour)
          ([sampleTxn 3 0,
            { Txid := "ff", Value := -7, Height := 95, Timestamp := Hour, WatchOnly := true,
              Confirmations := 99, Status := StatusError, ErrorMessage := "x",
              Bytes := [1, 2] }], none)).1[1]? = some r₂
      ∧ r₁.Status = r₂.Status ∧ r₁.Confirmations = r₂.Confirmations :=
  Transactions_status_pure 100 (2 * Hour) _ _ 0 1 _ _ rfl rfl rfl rfl

/-! ## Theorems: broadcast -/

theorem lookupUtxo_of_unique (utxos : List Utxo) (op : OutPoint) (ut : Utxo)
    (hmem : ut ∈ utxos) (heq : OutPointsEqual ut.Op op = true)
    (huniq : ∀ v ∈ utxos, OutPointsEqual v.Op op = true → v = ut) :
    lookupUtxo utxos op = ut := by
  induction utxos with
  | nil => cases hmem
  | cons x rest ih =>
    unfold lookupUtxo
    by_cases hx : OutPointsEqual x.Op op = true
    · rw [if_pos hx]
      exact huniq x (List.mem_cons_self x rest) hx
    · rw [if_neg hx]
      have hne : ut ≠ x := fun h => hx (h ▸ heq)
      have hin : ut ∈ rest := by
        rcases List.mem_cons.mp hmem with h | h
        · exact absurd h hne
        · exact h
      exact ih hin (fun v hv hv2 => huniq v (List.mem_cons_of_mem x hv) hv2)

theorem lookupUtxo_mem_or_zero (utxos : List Utxo) (op : OutPoint) :
    (lookupUtxo utxos op ∈ utxos ∧ OutPointsEqual (lookupUtxo utxos op).Op op = true)
      ∨ lookupUtxo utxos op = Utxo.zero := by
  induction utxos with
  | nil => right; rfl
  | cons x rest ih =>
    unfold lookupUtxo
    by_cases hx : OutPointsEqual x.Op op = true
    · rw [if_pos hx]
      exact Or.inl ⟨List.mem_cons_self x rest, hx⟩
    · rw [if_neg hx]
      rcases ih with ⟨hm, he⟩ | hz
      · exact Or.inl ⟨List.mem_cons_of_mem x hm, he⟩
      · exact Or.inr hz

theorem inputsLoop_ok (env : Env) (utxos : List Utxo) (ins : List TxIn) :
    ∀ (n : Nat) (acc res : List Input), inputsLoop env utxos ins n acc = .ok res →
      ∃ tail, res = acc ++ tail ∧ tail.length = ins.length ∧
        ∀ k inp, ins[k]? = some inp →
          ∃ addr, ScriptToAddress env (lookupUtxo utxos inp.PreviousOutPoint).ScriptPubkey
              = .ok addr ∧
            tail[k]? = some (mkInput env (n + k) inp
              (lookupUtxo utxos inp.PreviousOutPoint) addr) := by
  induction ins with
  | nil =>
    intro n acc res h
    simp only [inputsLoop, Except.ok.injEq] at h
    exact ⟨[], by simp [h], rfl, by intro k inp hk; simp at hk⟩
  | cons x rest ih =>
    intro n acc res h
    simp only [inputsLoop] at h
    cases hs : ScriptToAddress env (lookupUtxo utxos x.PreviousOutPoint).ScriptPubkey with
    | error e => rw [hs] at h; cases h
    | ok addr =>
      rw [hs] at h
      obtain ⟨tail, hres, hlen, hk⟩ := ih (n + 1) _ res h
      refine ⟨mkInput env n x (lookupUtxo utxos x.PreviousOutPoint) addr :: tail, ?_, ?_, ?_⟩
      · rw [hres]; simp
      · simp [hlen]
      · intro k inp hget
        cases k with
        | zero =>
          simp only [List.getElem?_cons_zero, Option.some.injEq] at hget
          subst hget
          exact ⟨addr, hs, by simp⟩
        | succ k =>
          simp only [List.getElem?_cons_succ] at hget
          obtain ⟨a, ha1, ha2⟩ := hk k inp hget
          refine ⟨a, ha1, ?_⟩
          simp only [List.getElem?_cons_succ]
          rw [ha2]
          congr 2
          omega

theorem outputsLoop_ok (env : Env) (outs : List TxOut) :
    ∀ (n : Nat) (acc res : List Output), outputsLoop env outs n acc = .ok res →
      ∃ tail, res = acc ++ tail ∧ tail.length = outs.length ∧
        ∀ k out, outs[k]? = some out →
          ∃ addr, ScriptToAddress env out.PkScript = .ok addr ∧
            tail[k]? = some (mkOutput env (n + k) out addr) := by
  induction outs with
  | nil =>
    intro n acc res h
    simp only [outputsLoop, Except.ok.injEq] at h
    exact ⟨[], by simp [h], rfl, by intro k out hk; simp at hk⟩
  | cons x rest ih =>
    intro n acc res h
    simp only [outputsLoop] at h
    cases hs : ScriptToAddress env x.PkScript with
    | error e => rw [hs] at h; cases h
    | ok addr =>
      rw [hs] at h
      obtain ⟨tail, hres, hlen, hk⟩ := ih (n + 1) _ res h
      refine ⟨mkOutput env n x addr :: tail, ?_, ?_, ?_⟩
      · rw [hres]; simp
      · simp [hlen]
      · intro k out hget
        cases k with
        | zero =>
          simp only [List.getElem?_cons_zero, Option.some.injEq] at hget
          subst hget
          exact ⟨addr, hs, by simp⟩
        | succ k =>
          simp only [List.getElem?_cons_succ] at hget
          obtain ⟨a, ha1, ha2⟩ := hk k out hget
          refine ⟨a, ha1, ?_⟩
          simp only [List.getElem?_cons_succ]
          rw [ha2]
          congr 2
          omega

theorem Broadcast_of_steps (env : Env) (tx : MsgTx) (st : World) (txBytes : Bytes)
    (utxos : List Utxo) (inputs : List Input) (outputs : List Output) (txid : String)
    (h1 : env.serializeVersion4Transaction tx 0 = .ok txBytes)
    (h2 : env.UtxosGetAll st.ledger = .ok utxos)
    (h3 : inputsLoop env utxos tx.TxIn 0 [] = .ok inputs)
    (h4 : outputsLoop env tx.TxOut 0 [] = .ok outputs)
    (h5 : env.clientBroadcast txBytes = .ok txid) :
    Broadcast env tx st
      = ((txid, none),
          { st with
            submitted := st.submitted ++ [txBytes],
            ledger := env.ProcessIncomingTransaction
              { Txid := txid, Locktime := tx.LockTime, Version := tx.Version,
                Confirmations := 0, Time := env.nowUnix, RawBytes := txBytes,
                Inputs := inputs, Outputs := outputs } st.ledger,
            ingested := st.ingested ++
              [{ Txid := txid, Locktime := tx.LockTime, Version := tx.Version,
                 Confirmations := 0, Time := env.nowUnix, RawBytes := txBytes,
                 Inputs := inputs, Outputs := outputs }] }) := by
  unfold Broadcast
  simp [h1, h2, h3, h4, h5]

/-- Claim C5: `Broadcast` on failure. Whenever it returns an error the
transaction id is empty, the ledger is the one before the call and
`ProcessIncomingTransaction` has not been invoked; a failed serialization, a
failed UTXO read and a failed address resolution (of an input or of an output)
are returned as they are, with the whole state untouched; and when all of
these succeed and the client pool rejects the serialized transaction, the
pool's error is returned unchanged, the only effect being the submission
itself. -/
theorem Broadcast_failure_keeps_ledger (env : Env) (tx : MsgTx) (st : World) :
    (∀ err, (Broadcast env tx st).1.2 = some err →
        (Broadcast env tx st).1.1 = "" ∧ (Broadcast env tx st).2.ledger = st.ledger
          ∧ (Broadcast env tx st).2.ingested = st.ingested)
    ∧ (∀ err, env.serializeVersion4Transaction tx 0 = .error err →
        Broadcast env tx st = (("", some err), st))
    ∧ (∀ txBytes err, env.serializeVersion4Transaction tx 0 = .ok txBytes →
        env.UtxosGetAll st.ledger = .error err →
        Broadcast env tx st = (("", some err), st))
    ∧ (∀ txBytes utxos err, env.serializeVersion4Transaction tx 0 = .ok txBytes →
        env.UtxosGetAll st.ledger = .ok utxos →
        inputsLoop env utxos tx.TxIn 0 [] = .error err →
        Broadcast env tx st = (("", some err), st))
    ∧ (∀ txBytes utxos inputs err, env.serializeVersion4Transaction tx 0 = .ok txBytes →
        env.UtxosGetAll st.ledger = .ok utxos →
        inputsLoop env utxos tx.TxIn 0 [] = .ok inputs →
        outputsLoop env tx.TxOut 0 [] = .error err →
        Broadcast env tx st = (("", some err), st))
    ∧ (∀ txBytes utxos inputs outputs err,
        env.serializeVersion4Transaction tx 0 = .ok txBytes →
        env.UtxosGetAll st.ledger = .ok utxos →
        inputsLoop env utxos tx.TxIn 0 [] = .ok inputs →
        outputsLoop env tx.TxOut 0 [] = .ok outputs →
        env.clientBroadcast txBytes = .error err →
        Broadcast env tx st
          = (("", some err), { st with submitted := st.submitted ++ [txBytes] })) := by
  refine ⟨?_, ?_, ?_, ?_, ?_, ?_⟩
  · intro err h
    unfold Broadcast at h ⊢
    cases h1 : env.serializeVersion4Transaction tx 0 with
    | error e => exact ⟨by simp, by simp, by simp⟩
    | ok txBytes =>
      cases h2 : env.UtxosGetAll st.ledger with
      | error e => exact ⟨by simp, by simp, by simp⟩
      | ok utxos =>
        cases h3 : inputsLoop env utxos tx.TxIn 0 [] with
        | error e => simp [h3]
        | ok inputs =>
          cases h4 : outputsLoop env tx.TxOut 0 [] with
          | error e => simp [h3, h4]
          | ok outputs =>
            cases h5 : env.clientBroadcast txBytes with
            | error e => simp [h3, h4, h5]
            | ok txid => simp [h1, h2, h3, h4, h5] at h
  · intro err h1
    unfold Broadcast
    simp [h1]
  · intro txBytes err h1 h2
    unfold Broadcast
    simp [h1, h2]
  · intro txBytes utxos err h1 h2 h3
    unfold Broadcast
    simp [h1, h2, h3]
  · intro txBytes utxos inputs err h1 h2 h3 h4
    unfold Broadcast
    simp [h1, h2, h3, h4]
  · intro txBytes utxos inputs outputs err h1 h2 h3 h4 h5
    unfold Broadcast
    simp [h1, h2, h3, h4, h5]

/-- Claim C5 evaluated: a client pool that rejects the sample transaction, and
an input whose outpoint is not stored (its address does not resolve). -/
theorem Broadcast_failure_keeps_ledger_witness :
    Broadcast rejectingEnv sampleTx sampleWorld
        = (("", some "64: dust"), { sampleWorld with submitted := [[4, 2, 1]] })
    ∧ Broadcast sampleEnv orphanTx sampleWorld
        = (("", some "unknown script type"), sampleWorld) :=
  ⟨(Broadcast_failure_keeps_ledger rejectingEnv sampleTx sampleWorld).2.2.2.2.2
      [4, 2, 1] _ _ _ "64: dust" rfl rfl rfl rfl rfl,
   (Broadcast_failure_keeps_ledger sampleEnv orphanTx sampleWorld).2.2.2.1
      [4, 1, 1] _ "unknown script type" rfl rfl rfl⟩

/-- Claim C6: whenever `Broadcast` returns no error, the id it returns is the
one the client pool answered for the serialized transaction, and
`ProcessIncomingTransaction` has been invoked exactly once, on the ledger as it
was, with a record `rec` carrying that id, one input entry per transaction
input and one output entry per transaction output, in order: entry `n` has
`N = n`, the input's previous outpoint hash and index, and the value and the
address of the script of the UTXO found for that outpoint among those read
from the store: the stored UTXO with that outpoint when there is exactly one,
and some stored UTXO with that outpoint whenever the codec rejects the empty
script of the zero UTXO; output entry `n` has `N = n` and the address of the output's script. -/
theorem Broadcast_success_ingests (env : Env) (tx : MsgTx) (st : World)
    (hok : (Broadcast env tx st).1.2 = none) :
    ∃ (txBytes : Bytes) (utxos : List Utxo) (txid : String) (rec : Transaction),
      env.serializeVersion4Transaction tx 0 = .ok txBytes
      ∧ env.UtxosGetAll st.ledger = .ok utxos
      ∧ env.clientBroadcast txBytes = .ok txid
      ∧ (Broadcast env tx st).1.1 = txid
      ∧ (Broadcast env tx st).2.ingested = st.ingested ++ [rec]
      ∧ (Broadcast env tx st).2.ledger = env.ProcessIncomingTransaction rec st.ledger
      ∧ rec.Txid = txid ∧ rec.RawBytes = txBytes
      ∧ rec.Inputs.length = tx.TxIn.length
      ∧ rec.Outputs.length = tx.TxOut.length
      ∧ (∀ (n : Nat) (inp : TxIn), tx.TxIn[n]? = some inp →
          ∃ (e : Input) (addr : Address), rec.Inputs[n]? = some e ∧ e.N = n
            ∧ e.Txid = inp.PreviousOutPoint.Hash.String
            ∧ e.Vout = inp.PreviousOutPoint.Index
            ∧ e.Satoshis = (lookupUtxo utxos inp.PreviousOutPoint).Value
            ∧ ScriptToAddress env (lookupUtxo utxos inp.PreviousOutPoint).ScriptPubkey
                = .ok addr
            ∧ e.Addr = addr.AddrString
            ∧ (∀ ut ∈ utxos, OutPointsEqual ut.Op inp.PreviousOutPoint = true →
                (∀ v ∈ utxos, OutPointsEqual v.Op inp.PreviousOutPoint = true → v = ut) →
                e.Satoshis = ut.Value ∧ ScriptToAddress env ut.ScriptPubkey = .ok addr)
            ∧ ((∃ err, env.ExtractPkScriptAddrs [] = .error err) →
                ∃ ut ∈ utxos, OutPointsEqual ut.Op inp.PreviousOutPoint = true
                  ∧ e.Satoshis = ut.Value ∧ ScriptToAddress env ut.ScriptPubkey = .ok addr))
      ∧ (∀ (n : Nat) (out : TxOut), tx.TxOut[n]? = some out →
          ∃ (o : Output) (addr : Address), rec.Outputs[n]? = some o ∧ o.N = n
            ∧ ScriptToAddress env out.PkScript = .ok addr
            ∧ o.ScriptPubKey.Addresses = [addr.AddrString]
            ∧ o.ScriptPubKey.Script.Hex = EncodeToString out.PkScript) := by
  cases h1 : env.serializeVersion4Transaction tx 0 with
  | error e => unfold Broadcast at hok; simp [h1] at hok
  | ok txBytes =>
    cases h2 : env.UtxosGetAll st.ledger with
    | error e => unfold Broadcast at hok; simp [h1, h2] at hok
    | ok utxos =>
      cases h3 : inputsLoop env utxos tx.TxIn 0 [] with
      | error e => unfold Broadcast at hok; simp [h1, h2, h3] at hok
      | ok inputs =>
        cases h4 : outputsLoop env tx.TxOut 0 [] with
        | error e => unfold Broadcast at hok; simp [h1, h2, h3, h4] at hok
        | ok outputs =>
          cases h5 : env.clientBroadcast txBytes with
          | error e => unfold Broadcast at hok; simp [h1, h2, h3, h4, h5] at hok
          | ok txid =>
            obtain ⟨ti, hti, hlen_i, hin⟩ := inputsLoop_ok env utxos tx.TxIn 0 [] inputs h3
            obtain ⟨tl, hto, hlen_o, hout⟩ := outputsLoop_ok env tx.TxOut 0 [] outputs h4
            simp only [List.nil_append] at hti hto
            subst hti hto
            rw [Broadcast_of_steps env tx st txBytes utxos inputs outputs txid h1 h2 h3 h4 h5]
            refine ⟨txBytes, utxos, txid, _, rfl, rfl, h5, rfl, rfl, rfl, rfl, rfl,
              hlen_i, hlen_o, ?_, ?_⟩
            · intro n inp hn
              obtain ⟨addr, ha, hget⟩ := hin n inp hn
              refine ⟨_, addr, hget, by simp [mkInput], rfl, rfl, rfl, ha, rfl, ?_, ?_⟩
              · intro ut hmem heq huniq
                have hl := lookupUtxo_of_unique utxos inp.PreviousOutPoint ut hmem heq huniq
                simp only [mkInput]
                rw [hl] at ha ⊢
                exact ⟨rfl, ha⟩
              · intro hrej
                obtain ⟨err, herr⟩ := hrej
                rcases lookupUtxo_mem_or_zero utxos inp.PreviousOutPoint with ⟨hm, he⟩ | hz
                · exact ⟨_, hm, he, rfl, ha⟩
                · rw [hz] at ha
                  simp [ScriptToAddress, Utxo.zero, herr] at ha
            · intro n out hn
              obtain ⟨addr, ha, hget⟩ := hout n out hn
              exact ⟨_, addr, hget, by simp [mkOutput], ha, rfl, rfl⟩

/-- Claim C6 evaluated on the sample transaction: the second stored UTXO is
spent by input 0 and the first by input 1. -/
theorem Broadcast_success_ingests_witness :
    (Broadcast sampleEnv sampleTx sampleWorld).1 = ("9f3c", none)
    ∧ ((Broadcast sampleEnv sampleTx sampleWorld).2.ingested.map fun t =>
        t.Inputs.map fun e => (e.N, e.Satoshis, e.Addr))
      = [[(0, 30000, "t10606060606060606060606060606060606060606"),
          (1, 70000, "t10505050505050505050505050505050505050505")]]
    ∧ ∃ (txBytes : Bytes) (utxos : List Utxo) (txid : String) (rec : Transaction),
      sampleEnv.serializeVersion4Transaction sampleTx 0 = .ok txBytes
      ∧ sampleEnv.UtxosGetAll sampleWorld.ledger = .ok utxos
      ∧ sampleEnv.clientBroadcast txBytes = .ok txid
      ∧ (Broadcast sampleEnv sampleTx sampleWorld).1.1 = txid
      ∧ (Broadcast sampleEnv sampleTx sampleWorld).2.ingested = sampleWorld.ingested ++ [rec] :=
  ⟨by decide, by decide,
    match Broadcast_success_ingests sampleEnv sampleTx sampleWorld (by decide) with
    | ⟨a, b, c, d, h1, h2, h3, h4, h5, _⟩ => ⟨a, b, c, d, h1, h2, h3, h4, h5⟩⟩

/-! ## Theorems: fee estimation -/

theorem foldl_append_singleton {α β : Type} (f : α → β) (l : List α) (acc : List β) :
    l.foldl (fun a x => a ++ [f x]) acc = acc ++ l.map f := by
  induction l generalizing acc with
  | nil => simp
  | cons x rest ih => simp [ih]

theorem estimateOutputs_eq_map (env : Env) (outs : List TransactionOutput) :
    estimateOutputs env outs
      = outs.map fun out =>
          ({ Value := out.Value, PkScript := (env.PayToAddrScript out.Address).1 } : TxOut) := by
  unfold estimateOutputs
  rw [foldl_append_singleton]
  simp

theorem toUint64_toInt_mul (s f : Int) :
    toUint64 (toInt (s * toInt f)) = (s * f) % 18446744073709551616 := by
  have h1 : ∀ x : Int, toUint64 (toInt x) = x % 18446744073709551616 := by
    intro x
    unfold toUint64 toInt
    omega
  rw [h1]
  have h2 : toInt f = f - 18446744073709551616 * ((f + 9223372036854775808) / 18446744073709551616) := by
    unfold toInt
    omega
  rw [h2, mul_sub, ← mul_assoc, mul_comm s 18446744073709551616, mul_assoc, Int.sub_emod,
    Int.mul_emod_right]
  simp

theorem EstimateFee_eq_mod (env : Env) (ins : List TransactionInput)
    (outs : List TransactionOutput) (feePerByte : Int) :
    EstimateFee env ins outs feePerByte
      = (env.EstimateSerializeSize ins.length (estimateOutputs env outs) false InputType.P2PKH
          * feePerByte) % 18446744073709551616 := by
  unfold EstimateFee
  exact toUint64_toInt_mul _ _

/-- Claim C7 fails as stated: with no inputs, no outputs and
`feePerByte = 2^64 - 1`, for every size estimator whose estimate `s` of the
empty transaction lies in `[2, 2^63)` the product wraps and `EstimateFee`
returns `2^64 - s`, not `s * (2^64 - 1)`; and the result is not monotone in
`feePerByte`: with the sample estimator (`s = 12`) it is 12 at `feePerByte = 1`
and 8 at `feePerByte = 1537228672809129302`, the first rate whose product
passes `2^64`. -/
theorem EstimateFee_wraps :
    isUint64 18446744073709551615
    ∧ EstimateFee sampleEnv [] [] 18446744073709551615 = 18446744073709551604
    ∧ sampleEnv.EstimateSerializeSize 0 [] false InputType.P2PKH * 18446744073709551615
        = 221360928884514619380
    ∧ EstimateFee sampleEnv [] [] 1 = 12
    ∧ EstimateFee sampleEnv [] [] 1537228672809129302 = 8
    ∧ ∀ env : Env,
        2 ≤ env.EstimateSerializeSize 0 [] false InputType.P2PKH →
        env.EstimateSerializeSize 0 [] false InputType.P2PKH < 9223372036854775808 →
        EstimateFee env [] [] 18446744073709551615
            = 18446744073709551616 - env.EstimateSerializeSize 0 [] false InputType.P2PKH
          ∧ EstimateFee env [] [] 18446744073709551615
            ≠ env.EstimateSerializeSize 0 [] false InputType.P2PKH * 18446744073709551615 := by
  refine ⟨by decide, by decide, by decide, by decide, by decide, ?_⟩
  intro env h2 h63
  have h := EstimateFee_eq_mod env [] [] 18446744073709551615
  have ho : estimateOutputs env [] = [] := rfl
  simp only [ho, List.length_nil, Nat.cast_zero] at h
  generalize env.EstimateSerializeSize 0 [] false InputType.P2PKH = s at h h2 h63
  rw [h]
  constructor <;> omega

/-- Claim C7, amended: for every list of inputs, list of outputs and
`feePerByte`, `EstimateFee` is `estimatedSize * feePerByte` reduced modulo
`2^64`, where `estimatedSize` is `EstimateSerializeSize` of `len(ins)`, the
outputs built from `outs` in order, `false` and `P2PKH`; it is exactly the
product whenever the product lies in `[0, 2^64)`; it depends on `ins` only
through its length; it is 0 when `feePerByte` is 0; and it is non-decreasing
in `feePerByte` as long as the size is non-negative and the larger product
stays below `2^64`. -/
theorem EstimateFee_value (env : Env) (ins : List TransactionInput)
    (outs : List TransactionOutput) (feePerByte : Int) :
    EstimateFee env ins outs feePerByte
        = (env.EstimateSerializeSize ins.length
            (outs.map fun out =>
              ({ Value := out.Value, PkScript := (env.PayToAddrScript out.Address).1 } : TxOut))
            false InputType.P2PKH * feePerByte) % 18446744073709551616
    ∧ (0 ≤ env.EstimateSerializeSize ins.length (estimateOutputs env outs) false InputType.P2PKH
            * feePerByte →
        env.EstimateSerializeSize ins.length (estimateOutputs env outs) false InputType.P2PKH
            * feePerByte < 18446744073709551616 →
        EstimateFee env ins outs feePerByte
          = env.EstimateSerializeSize ins.length (estimateOutputs env outs) false InputType.P2PKH
              * feePerByte)
    ∧ (∀ ins' : List TransactionInput, ins'.length = ins.length →
        EstimateFee env ins' outs feePerByte = EstimateFee env ins outs feePerByte)
    ∧ EstimateFee env ins outs 0 = 0
    ∧ (∀ fee' : Int, 0 ≤ feePerByte → feePerByte ≤ fee' →
        0 ≤ env.EstimateSerializeSize ins.length (estimateOutputs env outs) false InputType.P2PKH →
        env.EstimateSerializeSize ins.length (estimateOutputs env outs) false InputType.P2PKH
            * fee' < 18446744073709551616 →
        EstimateFee env ins outs feePerByte ≤ EstimateFee env ins outs fee') := by
  refine ⟨?_, ?_, ?_, ?_, ?_⟩
  · rw [EstimateFee_eq_mod, estimateOutputs_eq_map]
  · intro h0 h1
    rw [EstimateFee_eq_mod]
    exact Int.emod_eq_of_lt h0 h1
  · intro ins' hlen
    unfold EstimateFee
    rw [hlen]
  · rw [EstimateFee_eq_mod]
    simp
  · intro fee' h0 hle hs hlt
    rw [EstimateFee_eq_mod, EstimateFee_eq_mod]
    generalize env.EstimateSerializeSize ins.length (estimateOutputs env outs) false
      InputType.P2PKH = s at hs hlt
    have hmono : s * feePerByte ≤ s * fee' := Int.mul_le_mul_of_nonneg_left hle hs
    have hnn : 0 ≤ s * feePerByte := Int.mul_nonneg hs h0
    rw [Int.emod_eq_of_lt hnn (lt_of_le_of_lt hmono hlt),
      Int.emod_eq_of_lt (le_trans hnn hmono) hlt]
    exact hmono

/-- Claim C7 evaluated with the sample estimator: two inputs and one
pay-to-pubkey-hash output at 20 per byte. -/
theorem EstimateFee_value_witness :
    EstimateFee sampleEnv
        [{ OutpointHash := [1], OutpointIndex := 0, Value := 5 },
         { OutpointHash := [2], OutpointIndex := 1, Value := 7 }]
        [{ Address := { AddrString := "t1", ScriptAddress := List.replicate 20 3 },
           Value := 1000, Index := 0 }] 20
      = 6840 :=
  ((EstimateFee_value sampleEnv _ _ 20).2.1 (by decide) (by decide)).trans (by decide)

/-! ## Theorems: watched scripts, new addresses -/

theorem AddWatchedAddress_decode_error (env : Env) (addr : Address) (st : World)
    (script : Bytes) (err : GoError) (h : AddressToScript env addr = (script, some err)) :
    AddWatchedAddress env addr st = (some err, st) := by
  unfold AddWatchedAddress
  rw [h]

theorem AddWatchedAddress_ok (env : Env) (addr : Address) (st : World)
    (h : (AddWatchedAddress env addr st).1 = none) :
    ∃ script store, AddressToScript env addr = (script, none)
      ∧ env.WatchedScriptsPut script st.watchedScripts = (store, none)
      ∧ (AddWatchedAddress env addr st).2
          = { st with watchedScripts := store, listening := st.listening ++ [addr] } := by
  unfold AddWatchedAddress at h ⊢
  rcases h1 : AddressToScript env addr with ⟨script, _ | e⟩
  · rcases h2 : env.WatchedScriptsPut script st.watchedScripts with ⟨store, _ | e⟩
    · exact ⟨script, store, rfl, h2, by simp [h2]⟩
    · simp [h1, h2] at h
  · simp [h1] at h

theorem AddWatchedScript_ok (env : Env) (script : Bytes) (st : World)
    (h : (AddWatchedScript env script st).1 = none) :
    ∃ addr store, ScriptToAddress env script = .ok addr
      ∧ env.WatchedScriptsPut script st.watchedScripts = (store, none)
      ∧ (AddWatchedScript env script st).2
          = { st with watchedScripts := store, listening := st.listening ++ [addr] } := by
  unfold AddWatchedScript at h ⊢
  rcases h2 : env.WatchedScriptsPut script st.watchedScripts with ⟨store, _ | e⟩
  · cases h1 : ScriptToAddress env script with
    | error e => simp [h1, h2] at h
    | ok addr => exact ⟨addr, store, rfl, rfl, by simp [h1]⟩
  · simp [h2] at h

/-- Claim C8, the code at the failing input: `AddWatchedScript` stores the
script before it decodes it. For the 3-byte script `[1, 2, 3]`, which the codec
rejects, it returns the decode error with the script already in the
watched-script store (no address is registered); in general, whenever `Put`
succeeds and the script does not decode, the state returned with the error
holds the store as `Put` left it. `AddWatchedAddress`, which decodes first,
returns the decode error with the state untouched. -/
theorem AddWatchedScript_stores_before_decoding :
    AddWatchedScript sampleEnv [1, 2, 3] sampleWorld
        = (some "unknown script type",
            { sampleWorld with watchedScripts := sampleWorld.watchedScripts ++ [[1, 2, 3]] })
    ∧ [1, 2, 3] ∉ sampleWorld.watchedScripts
    ∧ [1, 2, 3] ∈ (AddWatchedScript sampleEnv [1, 2, 3] sampleWorld).2.watchedScripts
    ∧ AddWatchedAddress sampleEnv { AddrString := "bad", ScriptAddress := [] } sampleWorld
        = (some "unable to generate payment script for unsupported address type", sampleWorld)
    ∧ ∀ (env : Env) (script : Bytes) (st : World) (store : List Bytes) (err : GoError),
        env.WatchedScriptsPut script st.watchedScripts = (store, none) →
        ScriptToAddress env script = .error err →
        AddWatchedScript env script st = (some err, { st with watchedScripts := store }) := by
  refine ⟨by decide, by decide, by decide, by decide, ?_⟩
  intro env script st store err h1 h2
  unfold AddWatchedScript
  simp [h1, h2]

theorem NewAddress_ok (env : Env) (purpose : KeyPurpose) (st : World) (idx : Int)
    (addr : Address) (h1 : (env.KeysGetUnused purpose st.keys).1[1]? = some idx)
    (h2 : zcashCashAddress env (env.GenerateChildKey purpose (toUint32 idx)).1
      = some (.ok addr)) :
    NewAddress env purpose st
      = some (addr,
          { st with keys := (env.KeysMarkKeyAsUsed addr.ScriptAddress st.keys).1 }) := by
  unfold NewAddress
  simp [h1, h2]

/-- Claim C9, the code at the failing input: `NewAddress` reads `i[1]`
unguarded. With an empty key store, and with a key store holding a single
unused key of the purpose, the index is out of range and the call panics; in
general it panics whenever `GetUnused` reports fewer than two indexes. With
three unused keys it returns the address of the second reported index and
marks that key used. -/
theorem NewAddress_panics_below_two_unused :
    NewAddress sampleEnv KeyPurpose.EXTERNAL { sampleWorld with keys := [] } = none
    ∧ NewAddress sampleEnv KeyPurpose.EXTERNAL
        { sampleWorld with keys := sampleWorld.keys.take 1 } = none
    ∧ (sampleEnv.KeysGetUnused KeyPurpose.EXTERNAL (sampleWorld.keys.take 1)).1 = [0]
    ∧ NewAddress sampleEnv KeyPurpose.INTERNAL sampleWorld = none
    ∧ (NewAddress sampleEnv KeyPurpose.EXTERNAL sampleWorld).map
          (fun r => (r.1.ScriptAddress, r.2.keys.map KeyRow.used))
        = some (List.replicate 20 1, [false, true, false])
    ∧ ∀ (env : Env) (purpose : KeyPurpose) (st : World),
        (env.KeysGetUnused purpose st.keys).1.length < 2 →
        NewAddress env purpose st = none := by
  refine ⟨by decide, by decide, by decide, by decide, by decide, ?_⟩
  intro env purpose st h
  unfold NewAddress
  have hget : (env.KeysGetUnused purpose st.keys).1[1]? = none :=
    List.getElem?_eq_none (by omega)
  simp [hget]

/-! ## Theorems: the wallet registry -/

theorem codeMatches_iff (ToUpper : String → String) (wl : Wallet) (s : String) :
    codeMatches ToUpper wl s = true ↔
      (ToUpper wl.CurrencyCode = ToUpper s ∨ ToUpper wl.CurrencyCode = "T" ++ ToUpper s) := by
  unfold codeMatches
  simp

theorem WalletForCurrencyCode_none (ToUpper : String → String) (w : MultiWallet) (s : String)
    (h : ∀ e ∈ w, codeMatches ToUpper e.2 s = false) :
    WalletForCurrencyCode ToUpper w s = (none, some UnsuppertedCoinError) := by
  induction w with
  | nil => rfl
  | cons e rest ih =>
    obtain ⟨k, wl⟩ := e
    unfold WalletForCurrencyCode
    have h0 := h (k, wl) (List.mem_cons_self _ _)
    simp only at h0
    rw [if_neg (by simp [h0])]
    exact ih (fun e he => h e (List.mem_cons_of_mem _ he))

theorem WalletForCurrencyCode_some (ToUpper : String → String) (w : MultiWallet) (s : String)
    (h : ∃ e ∈ w, codeMatches ToUpper e.2 s = true) :
    ∃ e ∈ w, codeMatches ToUpper e.2 s = true
      ∧ WalletForCurrencyCode ToUpper w s = (some e.2, none) := by
  induction w with
  | nil => obtain ⟨e, he, _⟩ := h; cases he
  | cons e rest ih =>
    obtain ⟨k, wl⟩ := e
    by_cases h0 : codeMatches ToUpper wl s = true
    · refine ⟨(k, wl), List.mem_cons_self _ _, h0, ?_⟩
      unfold WalletForCurrencyCode
      rw [if_pos h0]
    · have hrest : ∃ e ∈ rest, codeMatches ToUpper e.2 s = true := by
        obtain ⟨e, he, hm⟩ := h
        rcases List.mem_cons.mp he with rfl | he'
        · exact absurd hm h0
        · exact ⟨e, he', hm⟩
      obtain ⟨e, he, hm, hr⟩ := ih hrest
      refine ⟨e, List.mem_cons_of_mem _ he, hm, ?_⟩
      unfold WalletForCurrencyCode
      rw [if_neg h0]
      exact hr

/-- Claim C10 fails as stated: a map may hold two Zcash wallets, the testnet
one under 1000133 and the mainnet one under 133. Visited in that order, it
answers `ZEC`, `zec` and `Zec` with the testnet wallet (code `tzec`, which is
`T` followed by the query), not with the mainnet Zcash wallet (code `zec`)
that the map holds. -/
theorem WalletForCurrencyCode_other_zcash_wallet :
    (133, Wallet.zcash "mainnet")
        ∈ [(1000133, Wallet.zcash "testnet3"), (133, Wallet.zcash "mainnet")]
    ∧ (Wallet.zcash "mainnet").CurrencyCode = "zec"
    ∧ (Wallet.zcash "testnet3").CurrencyCode = "tzec"
    ∧ (["ZEC", "zec", "Zec"].map fun q =>
        WalletForCurrencyCode asciiToUpper
          [(1000133, Wallet.zcash "testnet3"), (133, Wallet.zcash "mainnet")] q)
      = [(some (Wallet.zcash "testnet3"), none), (some (Wallet.zcash "testnet3"), none),
         (some (Wallet.zcash "testnet3"), none)]
    ∧ Wallet.zcash "testnet3" ≠ Wallet.zcash "mainnet" := by
  decide

/-- Claim C10, amended: for every `MultiWallet` (in every iteration order) and
every currency code `s`, `WalletForCurrencyCode` returns a nil wallet and
`UnsuppertedCoinError` exactly when no wallet of the map has a currency code
whose upper-casing is that of `s` or `"T"` followed by that of `s`, and
otherwise a nil error and a wallet of the map with such a code. The Zcash
wallet's code is `zec` over the parameters named `mainnet` and `tzec` over any
other. In particular, with `strings.ToUpper` acting on `zec`, `tzec`, `Zec`,
`ZEC` as it does, a map holding a Zcash wallet, on either network, answers
`ZEC`, `zec` and `Zec` with a nil error and a wallet of the map that matches
the query, its code being `zec` or `tzec` up to case; that wallet is the Zcash
wallet itself when every wallet of the map matching the query is that
wallet. -/
theorem WalletForCurrencyCode_spec (ToUpper : String → String) (w : MultiWallet) (s : String) :
    ((WalletForCurrencyCode ToUpper w s = (none, some UnsuppertedCoinError)) ↔
        ¬ ∃ e ∈ w, (ToUpper e.2.CurrencyCode = ToUpper s
            ∨ ToUpper e.2.CurrencyCode = "T" ++ ToUpper s))
    ∧ ((∃ e ∈ w, (ToUpper e.2.CurrencyCode = ToUpper s
            ∨ ToUpper e.2.CurrencyCode = "T" ++ ToUpper s)) →
        ∃ e ∈ w, (ToUpper e.2.CurrencyCode = ToUpper s
            ∨ ToUpper e.2.CurrencyCode = "T" ++ ToUpper s)
          ∧ WalletForCurrencyCode ToUpper w s = (some e.2, none))
    ∧ ZCashWallet.CurrencyCode "mainnet" = "zec"
    ∧ (∀ paramsName : String, paramsName ≠ "mainnet" →
        ZCashWallet.CurrencyCode paramsName = "tzec")
    ∧ (ToUpper "zec" = "ZEC" → ToUpper "tzec" = "TZEC" → ToUpper "Zec" = "ZEC" →
        ToUpper "ZEC" = "ZEC" →
        ∀ (paramsName : String) (k : Nat), (k, Wallet.zcash paramsName) ∈ w →
        ∀ q ∈ ["ZEC", "zec", "Zec"],
          ∃ e ∈ w, WalletForCurrencyCode ToUpper w q = (some e.2, none)
            ∧ (ToUpper e.2.CurrencyCode = ToUpper q
                ∨ ToUpper e.2.CurrencyCode = "T" ++ ToUpper q)
            ∧ (ToUpper e.2.CurrencyCode = "ZEC" ∨ ToUpper e.2.CurrencyCode = "TZEC")
            ∧ ((∀ e' ∈ w, (ToUpper e'.2.CurrencyCode = ToUpper q
                  ∨ ToUpper e'.2.CurrencyCode = "T" ++ ToUpper q) →
                  e'.2 = Wallet.zcash paramsName) →
                e.2 = Wallet.zcash paramsName)) := by
  have hsome : (∃ e ∈ w, (ToUpper e.2.CurrencyCode = ToUpper s
        ∨ ToUpper e.2.CurrencyCode = "T" ++ ToUpper s)) →
      ∃ e ∈ w, (ToUpper e.2.CurrencyCode = ToUpper s
          ∨ ToUpper e.2.CurrencyCode = "T" ++ ToUpper s)
        ∧ WalletForCurrencyCode ToUpper w s = (some e.2, none) := by
    intro h
    obtain ⟨e, he, hm⟩ := h
    obtain ⟨e', he', hm', hr⟩ :=
      WalletForCurrencyCode_some ToUpper w s ⟨e, he, (codeMatches_iff _ _ _).mpr hm⟩
    exact ⟨e', he', (codeMatches_iff _ _ _).mp hm', hr⟩
  refine ⟨⟨?_, ?_⟩, hsome, rfl, ?_, ?_⟩
  · intro hnone hex
    obtain ⟨e, _, _, hr⟩ := hsome hex
    rw [hr] at hnone
    cases hnone
  · intro hno
    apply WalletForCurrencyCode_none
    intro e he
    by_contra hc
    have hm : codeMatches ToUpper e.2 s = true := by simpa using hc
    exact hno ⟨e, he, (codeMatches_iff _ _ _).mp hm⟩
  · intro paramsName hn
    unfold ZCashWallet.CurrencyCode
    rw [if_neg hn]
  · intro h1 h2 h3 h4 paramsName k hmem q hq
    have hz : ToUpper (Wallet.zcash paramsName).CurrencyCode = "ZEC"
        ∨ ToUpper (Wallet.zcash paramsName).CurrencyCode = "TZEC" := by
      unfold Wallet.zcash ZCashWallet.CurrencyCode
      by_cases hn : paramsName = "mainnet"
      · left; simp [hn, h1]
      · right; simp [hn, h2]
    have hq' : ToUpper q = "ZEC" := by
      simp only [List.mem_cons, List.mem_singleton, List.not_mem_nil, or_false] at hq
      rcases hq with rfl | rfl | rfl
      · exact h4
      · exact h1
      · exact h3
    have hmatch : ∀ e : Nat × Wallet,
        codeMatches ToUpper e.2 q = true ↔
          (ToUpper e.2.CurrencyCode = "ZEC" ∨ ToUpper e.2.CurrencyCode = "TZEC") := by
      intro e
      rw [codeMatches_iff, hq']
      rfl
    obtain ⟨e, he, hm, hr⟩ :=
      WalletForCurrencyCode_some ToUpper w q ⟨(k, Wallet.zcash paramsName), hmem,
        (hmatch _).mpr hz⟩
    exact ⟨e, he, hr, (codeMatches_iff _ _ _).mp hm, (hmatch e).mp hm,
      fun huniq => huniq e he ((codeMatches_iff _ _ _).mp hm)⟩

/-- Claim C10 evaluated with ASCII upper-casing: a registry holding a Bitcoin,
a testnet Zcash and a Litecoin wallet, and a registry holding a Bitcoin and a
mainnet Zcash wallet, which answers the three queries with that Zcash
wallet. -/
theorem WalletForCurrencyCode_spec_witness :
    (["ZEC", "zec", "Zec", "TZEC", "btc", "MUE", ""].map fun q =>
        WalletForCurrencyCode asciiToUpper
          [(0, { paramsName := "testnet3", CurrencyCode := "tbtc" }),
           (1000133, Wallet.zcash "testnet3"),
           (1000002, { paramsName := "testnet3", CurrencyCode := "tltc" })] q)
      = [(some (Wallet.zcash "testnet3"), none), (some (Wallet.zcash "testnet3"), none),
         (some (Wallet.zcash "testnet3"), none), (some (Wallet.zcash "testnet3"), none),
         (some { paramsName := "testnet3", CurrencyCode := "tbtc" }, none),
         (none, some UnsuppertedCoinError), (none, some UnsuppertedCoinError)]
    ∧ (Wallet.zcash "mainnet").CurrencyCode = "zec"
    ∧ ∀ q ∈ ["ZEC", "zec", "Zec"],
        ∃ e ∈ [((0 : Nat), ({ paramsName := "mainnet", CurrencyCode := "btc" } : Wallet)),
               (133, Wallet.zcash "mainnet")],
          WalletForCurrencyCode asciiToUpper
              [(0, { paramsName := "mainnet", CurrencyCode := "btc" }),
               (133, Wallet.zcash "mainnet")] q
            = (some e.2, none)
          ∧ e.2 = Wallet.zcash "mainnet" :=
  ⟨by decide, by decide, fun q hq =>
    match (WalletForCurrencyCode_spec asciiToUpper
        [(0, { paramsName := "mainnet", CurrencyCode := "btc" }),
         (133, Wallet.zcash "mainnet")] "").2.2.2.2
      (by decide) (by decide) (by decide) (by decide) "mainnet" 133
      (by decide) q hq with
    | ⟨e, he, hr, _, _, huniq⟩ =>
      ⟨e, he, hr, huniq (by
        have hq3 : asciiToUpper q = "ZEC" := by
          simp only [List.mem_cons, List.mem_singleton, List.not_mem_nil, or_false] at hq
          rcases hq with rfl | rfl | rfl <;> decide
        rw [hq3]
        decide)⟩⟩

/-! ## Theorems: registration of the coins, network parameters -/

theorem registerCoin_monetaryunit (cs : Constructors) (codes : CoinCodes) (cfg : Config)
    (mnemonic : String) (m : MultiWallet) (coin : CoinConfig) (w : Wallet)
    (hcoin : coin.CoinType = CoinTypeMonetaryUnit)
    (hname : cfg.ParamsName ≠ MonetaryUnitMainNetParams.Name)
    (hw : cs.NewMonetaryUnitWallet coin mnemonic MonetaryUnitTestNetParams = .ok w) :
    registerCoin cs codes cfg mnemonic m coin = .ok (mapAssign m CoinTypeMonetaryUnitTest w) := by
  unfold registerCoin
  simp [hcoin, hname, hw]

theorem registerStandard_mainnet (cfg : Config) (mnemonic : String) (m : MultiWallet)
    (construct : CoinConfig → String → String → Except GoError Wallet) (coin : CoinConfig)
    (mainKey testKey : Nat) (w : Wallet) (hname : cfg.ParamsName = MainNetParamsName)
    (hw : construct coin mnemonic cfg.ParamsName = .ok w) :
    registerStandard cfg mnemonic m construct coin mainKey testKey
      = .ok (mapAssign m (ExtendCoinType mainKey) w) := by
  unfold registerStandard
  rw [hw]
  simp [hname]

theorem registerStandard_testnet (cfg : Config) (mnemonic : String) (m : MultiWallet)
    (construct : CoinConfig → String → String → Except GoError Wallet) (coin : CoinConfig)
    (mainKey testKey : Nat) (w : Wallet) (hname : cfg.ParamsName ≠ MainNetParamsName)
    (hw : construct coin mnemonic cfg.ParamsName = .ok w) :
    registerStandard cfg mnemonic m construct coin mainKey testKey
      = .ok (mapAssign m (ExtendCoinType testKey) w) := by
  unfold registerStandard
  rw [hw]
  simp [hname]

theorem mem_keys_mapAssign (m : MultiWallet) (k : Nat) (w : Wallet) :
    k ∈ (mapAssign m k w).keys := by
  unfold mapAssign MultiWallet.keys
  simp

/-- Claim C11, the code at the failing input: with the configuration of the
start command on the main network (`cfg.Params.Name = "mainnet"`, every
constructor succeeding) `NewMultiWallet` stores Bitcoin, Bitcoin Cash, Zcash
and Litecoin under their mainnet coin types and the MonetaryUnit wallet under
`CoinTypeMonetaryUnitTest` (100031), not under `CoinTypeMonetaryUnit` (31); the
same keys for MonetaryUnit result under `--testnet`. In general the
MonetaryUnit arm compares `cfg.Params.Name` with
`MonetaryUnitMainNetParams.Name`, so under `chaincfg.MainNetParams` it builds
the wallet over the test parameters and stores it under the test coin type,
while the Bitcoin arm, comparing with `chaincfg.MainNetParams.Name`, stores
under the mainnet coin type. -/
theorem NewMultiWallet_monetaryunit_under_test_key :
    (NewMultiWallet sampleConstructors sampleCodes (startConfig false)).toOption.map
        MultiWallet.keys = some [0, 145, 133, 1, 100031]
    ∧ (NewMultiWallet sampleConstructors sampleCodes (startConfig true)).toOption.map
        MultiWallet.keys = some [1000000, 1000145, 1000133, 1000001, 100031]
    ∧ NewMultiWallet sampleConstructors sampleCodes
        { startConfig false with Coins := [{ CoinType := CoinTypeMonetaryUnit, ClientAPIs := [] }] }
        = .ok [(CoinTypeMonetaryUnitTest, { paramsName := "mainMonetaryUnit", CurrencyCode := "mue" })]
    ∧ CoinTypeMonetaryUnit = 31 ∧ CoinTypeMonetaryUnitTest = 100031
    ∧ (∀ (cs : Constructors) (codes : CoinCodes) (cfg : Config) (mnemonic : String)
        (m : MultiWallet) (coin : CoinConfig) (w : Wallet),
        coin.CoinType = CoinTypeMonetaryUnit → cfg.ParamsName = MainNetParamsName →
        cs.NewMonetaryUnitWallet coin mnemonic MonetaryUnitTestNetParams = .ok w →
        registerCoin cs codes cfg mnemonic m coin
          = .ok (mapAssign m CoinTypeMonetaryUnitTest w))
    ∧ (∀ (cs : Constructors) (codes : CoinCodes) (cfg : Config) (mnemonic : String)
        (m : MultiWallet) (coin : CoinConfig) (w : Wallet),
        coin.CoinType ≠ CoinTypeMonetaryUnit →
        coin.CoinType = ExtendCoinType (codes.mainnet CoinType.Bitcoin) →
        cfg.ParamsName = MainNetParamsName →
        cs.NewBitcoinWallet coin mnemonic cfg.ParamsName = .ok w →
        registerCoin cs codes cfg mnemonic m coin
          = .ok (mapAssign m (ExtendCoinType (codes.mainnet CoinType.Bitcoin)) w)) := by
  refine ⟨by decide, by decide, rfl, rfl, rfl, ?_, ?_⟩
  · intro cs codes cfg mnemonic m coin w hcoin hname hw
    apply registerCoin_monetaryunit cs codes cfg mnemonic m coin w hcoin _ hw
    rw [hname]
    decide
  · intro cs codes cfg mnemonic m coin w hne hcoin hname hw
    unfold registerCoin
    rw [if_neg hne, if_pos hcoin]
    exact registerStandard_mainnet cfg mnemonic m _ coin _ _ w hname hw

theorem mainPowLimit_eq : mainPowLimit = 2 ^ 255 - 1 := by
  unfold mainPowLimit Sub Lsh bigOne
  norm_num

/-- Claim C12, the code at its only input: `mainPowLimit` is
`Lsh(bigOne, 255) - bigOne = 2^255 - 1`, and so is the `PowLimit` of
`MonetaryUnitMainNetParams` and of its copy `MonetaryUnitTestNetParams`; it
is not the `2^224 - 1` of the comment above the variable. -/
theorem mainPowLimit_is_not_2_224 :
    mainPowLimit = 2 ^ 255 - 1
    ∧ MonetaryUnitMainNetParams.PowLimit = 2 ^ 255 - 1
    ∧ MonetaryUnitTestNetParams.PowLimit = 2 ^ 255 - 1
    ∧ mainPowLimit ≠ 2 ^ 224 - 1 := by
  refine ⟨mainPowLimit_eq, mainPowLimit_eq, mainPowLimit_eq, ?_⟩
  rw [mainPowLimit_eq]
  norm_num
end Multiwallet
